import Mathlib

/-!
# Verification of the dbt-exasol connection subsystem

A shallow embedding, in Lean 4, of the connection lifecycle / pooling
subsystem of the `dbt-exasol` adapter
(`dbt/adapters/exasol/connections.py`), together with theorems settling
the specification claims about it.

Conventions of the embedding:

* Python exceptions become `Except Err` values; the error taxonomy of the
  adapter is the inductive `Err`.
* The external database driver (pyexasol) is a collaborator: a physical
  connection is a `Handle` carrying the observable facts the adapter
  reads from it (`is_closed`, and whether a `SELECT 1` round trip
  succeeds).  Statement execution on a live connection is modelled by
  `PyConn`, which logs executed SQL texts in order and produces statement
  handles deterministically.
* The class-level pool `dict[str, ExaConnection]` becomes an association
  list `Pool` with at most the same observable operations the source
  performs on it (membership test, lookup, delete, insert).
* Machine-independent Python values flowing through cursor rows are the
  inductive `Val`.
-/

namespace DbtExasol

/-- Error taxonomy for exceptions crossing the embedded code, mirroring the
exception classes the source raises or catches: pyexasol's `ExaError` and
its subclass `ExaQueryError`, dbt's `DbtRuntimeError` / `DbtDatabaseError`
/ `FailedToConnectError`, Python's `RuntimeError`, and anything else. -/
inductive Err where
  | exaError (msg : String)
  | exaQueryError (msg : String)
  | dbtRuntimeError (msg : String)
  | dbtDatabaseError (msg : String)
  | failedToConnect (msg : String)
  | runtimeError (msg : String)
  | otherError (msg : String)
deriving DecidableEq, Repr

/-- `isinstance(e, pyexasol.ExaError)`: `ExaQueryError` is a subclass of
`ExaError` in pyexasol, every other modelled class is not. -/
def Err.isExaError : Err → Bool
  | .exaError _ => true
  | .exaQueryError _ => true
  | _ => false

/-- A calendar timestamp as produced by the external date/time parser. -/
structure Timestamp where
  year : Nat
  month : Nat
  day : Nat
  hour : Nat
  minute : Nat
  second : Nat
deriving DecidableEq, Repr

/-- A Python value occurring in a fetched row: `None`, a `str`, a native
number, an arbitrary-precision decimal (result of `decimal.Decimal`,
kept as mantissa and decimal scale exactly as the decimal module stores
it: `Decimal("123.45")` is mantissa 12345 at scale 2), or a parsed
datetime (result of `dateutil.parser.parse`). -/
inductive Val where
  | vnone
  | vstr (s : String)
  | vint (n : Int)
  | vdec (mantissa : Int) (scale : Nat)
  | vts (t : Timestamp)
deriving DecidableEq, Repr

/-- `ExasolCredentials`: the profile parameters of the adapter
(`dbt/adapters/exasol/connections.py`).  Timeouts keep their numeric
nature; the driver-level defaults for them are irrelevant to every claim
and are taken as the field defaults. -/
structure ExasolCredentials where
  dsn : String
  database : String
  schema : String
  user : String := ""
  password : String := ""
  access_token : String := ""
  refresh_token : String := ""
  connection_timeout : Nat := 10
  socket_timeout : Nat := 30
  query_timeout : Nat := 0
  compression : Bool := false
  encryption : Bool := true
  validate_server_certificate : Bool := true
  protocol_version : String := "v3"
  retries : Nat := 1
  row_separator : String := "LF"
  timestamp_format : String := "YYYY-MM-DDTHH:MI:SS.FF6"
deriving DecidableEq, Repr

/-! ## Python string primitives

Executable models of the Python `str` operations the adapter uses
(`startswith`, `split`, `in`, `lower`), written with structural (fuel)
recursion so that the kernel can evaluate them on concrete inputs. -/

/-- Whether `p` is an initial segment of `s` (character lists). -/
def startsWithL : List Char → List Char → Bool
  | [], _ => true
  | _ :: _, [] => false
  | p :: ps, c :: cs => p == c && startsWithL ps cs

/-- Python `s.startswith(p)`. -/
def pyStartsWith (s p : String) : Bool :=
  startsWithL p.data s.data

/-- Splitting scan for `str.split` with a non-empty separator: `acc` holds
the current part reversed; at each position either the separator matches
(emit the part, skip the separator) or one character moves to the part.
The fuel is the input length, enough for every step. -/
def splitGo (sep : List Char) : Nat → List Char → List Char → List (List Char)
  | _, acc, [] => [acc.reverse]
  | 0, acc, _ => [acc.reverse]
  | fuel + 1, acc, c :: cs =>
      if startsWithL sep (c :: cs) then
        acc.reverse :: splitGo sep fuel [] (List.drop sep.length (c :: cs))
      else splitGo sep fuel (c :: acc) cs

/-- Python `s.split(sep)` for a non-empty separator (the only way this
code calls it). -/
def pySplit (s sep : String) : List String :=
  if sep.data.isEmpty then [s]
  else (splitGo sep.data s.data.length [] s.data).map (fun l => ⟨l⟩)

/-- Python `sub in s` for a non-empty separator: `str.split` yields more
than one part exactly when the separator occurs. -/
def pyContains (s sub : String) : Bool :=
  (pySplit s sub).length != 1

/-- Python `s.split(sep, maxsplit)` for a non-empty separator. -/
def pySplitAtMost (s sep : String) (maxsplit : Nat) : List String :=
  let parts := pySplit s sep
  if parts.length ≤ maxsplit + 1 then parts
  else parts.take maxsplit ++ [String.intercalate sep (parts.drop maxsplit)]

/-- Python `s.lower()` (character-wise; the adapter only lowers ASCII
protocol-version tokens). -/
def pyLower (s : String) : String :=
  ⟨s.data.map Char.toLower⟩

/-! ## Python `str()` of the key-parts tuple

`_get_pool_key` computes `hashlib.sha256(str(key_parts).encode()).hexdigest()`
where `key_parts = (dsn, user, database, schema)`.  We model Python's
`str()` of a tuple of four `str` values: `repr` of each component, joined
with `", "` inside parentheses.  `repr` of a `str` picks the quote
character (single quote unless the text contains a single quote and no
double quote), escapes the backslash, the chosen quote, `\n`, `\r`, `\t`,
and renders other non-printable characters as `\xNN`; printability is
approximated by "code point ≥ 32 and ≠ 127", which matches CPython on the
ASCII range. -/

/-- The single-quote character (code point 39). -/
def squote : Char := Char.ofNat 39

/-- Lower-case hexadecimal digit for `n < 16`. -/
def hexChar (n : Nat) : Char :=
  if n < 10 then Char.ofNat (48 + n) else Char.ofNat (87 + n)

/-- One character of a Python `repr` body, escaped for quote character `q`. -/
def pyEscapeChar (q : Char) (c : Char) : List Char :=
  if c = '\\' then ['\\', '\\']
  else if c = q then ['\\', q]
  else if c = '\n' then ['\\', 'n']
  else if c = '\r' then ['\\', 'r']
  else if c = '\t' then ['\\', 't']
  else if c.toNat < 32 ∨ c.toNat = 127 then
    ['\\', 'x', hexChar (c.toNat / 16), hexChar (c.toNat % 16)]
  else [c]

/-- Quote character CPython's `repr` chooses for a `str`. -/
def pyQuote (s : List Char) : Char :=
  if s.contains squote && !(s.contains '"') then '"' else squote

/-- Body of a Python `repr`, with every character escaped for `q`. -/
def pyEscape (q : Char) (s : List Char) : List Char :=
  (s.map (pyEscapeChar q)).flatten

/-- Python `repr` of a `str`, on character lists. -/
def pyReprL (s : List Char) : List Char :=
  pyQuote s :: pyEscape (pyQuote s) s ++ [pyQuote s]

/-- Python `repr` of a `str`. -/
def pyRepr (s : String) : String :=
  ⟨pyReprL s.data⟩

/-- Python `str()` of a 4-tuple of `str` values. -/
def pyStrTuple4 (a b c d : String) : String :=
  "(" ++ pyRepr a ++ ", " ++ pyRepr b ++ ", " ++ pyRepr c ++ ", " ++ pyRepr d ++ ")"

/-- The exact text fed to `hashlib.sha256` by `_get_pool_key`:
`str((credentials.dsn, credentials.user, credentials.database,
credentials.schema))`. -/
def poolKeyInput (c : ExasolCredentials) : String :=
  pyStrTuple4 c.dsn c.user c.database c.schema

/-! ## SHA-256 (`hashlib.sha256(...).hexdigest()`)

A direct executable SHA-256 over the UTF-8 bytes of the input string
(Python `str.encode()` defaults to UTF-8), producing the lower-case hex
digest. Words are `Nat` reduced modulo `2^32`. -/

/-- UTF-8 encoding of one scalar value. -/
def utf8Bytes (c : Char) : List Nat :=
  let n := c.toNat
  if n < 128 then [n]
  else if n < 2048 then [192 + n / 64, 128 + n % 64]
  else if n < 65536 then [224 + n / 4096, 128 + (n / 64) % 64, 128 + n % 64]
  else [240 + n / 262144, 128 + (n / 4096) % 64, 128 + (n / 64) % 64, 128 + n % 64]

/-- UTF-8 bytes of a string. -/
def strBytes (s : String) : List Nat :=
  (s.data.map utf8Bytes).flatten

/-- 32-bit right rotation. -/
def rotr (n x : Nat) : Nat :=
  ((x >>> n) ||| (x <<< (32 - n))) % 4294967296

/-- SHA-256 round constants. -/
def shaK : List Nat :=
  [1116352408, 1899447441, 3049323471, 3921009573, 961987163,
   1508970993, 2453635748, 2870763221, 3624381080, 310598401,
   607225278, 1426881987, 1925078388, 2162078206, 2614888103,
   3248222580, 3835390401, 4022224774, 264347078, 604807628,
   770255983, 1249150122, 1555081692, 1996064986, 2554220882,
   2821834349, 2952996808, 3210313671, 3336571891, 3584528711,
   113926993, 338241895, 666307205, 773529912, 1294757372,
   1396182291, 1695183700, 1986661051, 2177026350, 2456956037,
   2730485921, 2820302411, 3259730800, 3345764771, 3516065817,
   3600352804, 4094571909, 275423344, 430227734, 506948616,
   659060556, 883997877, 958139571, 1322822218, 1537002063,
   1747873779, 1955562222, 2024104815, 2227730452, 2361852424,
   2428436474, 2756734187, 3204031479, 3329325298]

/-- SHA-256 initial hash state. -/
def shaH0 : List Nat :=
  [1779033703, 3144134277, 1013904242, 2773480762,
   1359893119, 2600822924, 528734635, 1541459225]

/-- Merkle–Damgård padding: `0x80`, zeros, then the 64-bit big-endian bit
length, so the padded length is a multiple of 64 bytes. -/
def padMessage (msg : List Nat) : List Nat :=
  let len := msg.length
  let zeros := (119 - len % 64) % 64
  msg ++ [128] ++ List.replicate zeros 0 ++
    (List.range 8).map (fun i => ((len * 8) >>> ((7 - i) * 8)) % 256)

/-- Big-endian 32-bit words from bytes. -/
def bytesToWords : List Nat → List Nat
  | b0 :: b1 :: b2 :: b3 :: rest =>
      (b0 * 16777216 + b1 * 65536 + b2 * 256 + b3) :: bytesToWords rest
  | _ => []

/-- Split a word list into 16-word blocks (fuel-driven structural
recursion; the fuel is the list length, enough for every step). -/
def chunksAux : Nat → List Nat → List (List Nat)
  | 0, _ => []
  | _, [] => []
  | fuel + 1, w :: ws => ((w :: ws).take 16) :: chunksAux fuel (ws.drop 15)

/-- Split a word list into 16-word blocks. -/
def chunks16 (l : List Nat) : List (List Nat) :=
  chunksAux l.length l

/-- σ₀ of the SHA-256 message schedule. -/
def smallSigma0 (x : Nat) : Nat :=
  (rotr 7 x) ^^^ (rotr 18 x) ^^^ (x >>> 3)

/-- σ₁ of the SHA-256 message schedule. -/
def smallSigma1 (x : Nat) : Nat :=
  (rotr 17 x) ^^^ (rotr 19 x) ^^^ (x >>> 10)

/-- Append the next scheduled word to a partial schedule. -/
def scheduleStep (w : List Nat) : List Nat :=
  let i := w.length
  w ++ [(w.getD (i - 16) 0 + smallSigma0 (w.getD (i - 15) 0) +
         w.getD (i - 7) 0 + smallSigma1 (w.getD (i - 2) 0)) % 4294967296]

/-- Extend a 16-word block to the 64-word schedule. -/
def schedule (w : List Nat) : List Nat :=
  (List.range 48).foldl (fun acc _ => scheduleStep acc) w

/-- One SHA-256 compression round on the 8-word working state. -/
def compressStep (k : Nat) (w : Nat) (st : List Nat) : List Nat :=
  match st with
  | [a, b, c, d, e, f, g, h] =>
      let s1 := (rotr 6 e) ^^^ (rotr 11 e) ^^^ (rotr 25 e)
      let ch := (e &&& f) ^^^ ((e ^^^ 4294967295) &&& g)
      let t1 := (h + s1 + ch + k + w) % 4294967296
      let s0 := (rotr 2 a) ^^^ (rotr 13 a) ^^^ (rotr 22 a)
      let mj := (a &&& b) ^^^ (a &&& c) ^^^ (b &&& c)
      let t2 := (s0 + mj) % 4294967296
      [(t1 + t2) % 4294967296, a, b, c, (d + t1) % 4294967296, e, f, g]
  | other => other

/-- Compress one 16-word block into the hash state. -/
def compressBlock (h : List Nat) (block : List Nat) : List Nat :=
  let st := (shaK.zip (schedule block)).foldl
    (fun st kw => compressStep kw.1 kw.2 st) h
  (h.zip st).map (fun p => (p.1 + p.2) % 4294967296)

/-- SHA-256 state words of a byte message. -/
def sha256Words (msg : List Nat) : List Nat :=
  (chunks16 (bytesToWords (padMessage msg))).foldl compressBlock shaH0

/-- Eight hex digits of a 32-bit word, big-endian. -/
def toHex8 (n : Nat) : List Char :=
  (List.range 8).map (fun i => hexChar ((n >>> ((7 - i) * 4)) % 16))

/-- `hashlib.sha256(s.encode()).hexdigest()`. -/
def sha256hex (s : String) : String :=
  ⟨((sha256Words (strBytes s)).map toHex8).flatten⟩

/-! ## The pool and the connection manager

`ExasolConnectionManager._pool : dict[str, ExaConnection]` becomes an
association list; the source only performs membership tests, single-key
lookups, single-key deletes, and inserts at absent keys on it.  A physical
driver connection (`ExaConnection`) appears to the manager only through
`is_closed` and the outcome of the `SELECT 1` round trip, so a `Handle`
carries exactly those observables plus an identity tag. -/

/-- A physical driver connection as observed by the manager: an identity
tag, the driver's `is_closed` flag, and whether a `SELECT 1` execute +
fetchone round trip on it completes without raising (the driver is an
external collaborator; only this outcome is visible to the adapter). -/
structure Handle where
  hid : Nat
  is_closed : Bool
  selectOneOk : Bool
deriving DecidableEq, Repr

/-- The class-level connection pool. -/
abbrev Pool := List (String × Handle)

/-- `pool[key]` / `key in pool`: first binding of `key`, if any. -/
def poolFind (p : Pool) (k : String) : Option Handle :=
  (p.find? (fun e => e.1 == k)).map (fun e => e.2)

/-- `del pool[key]`: remove the binding of `key`. -/
def poolErase (p : Pool) (k : String) : Pool :=
  p.eraseP (fun e => e.1 == k)

/-- `pool[key] = conn` at an absent key: add the binding. -/
def poolInsert (p : Pool) (k : String) (h : Handle) : Pool :=
  p ++ [(k, h)]

/-- A dbt `Connection` contract object as the manager uses it: its state
string, its optional handle, and its optional credentials. -/
structure DbtConnection where
  state : String := "init"
  handle : Option Handle := none
  credentials : Option ExasolCredentials := none
deriving DecidableEq, Repr

/-- `_get_pool_key`: sha256 hex digest of `str((dsn, user, database,
schema))`. -/
def _get_pool_key (credentials : ExasolCredentials) : String :=
  sha256hex (poolKeyInput credentials)

/-- `_is_connection_valid`: `False` if the handle is marked closed, else
the outcome of the `SELECT 1` round trip; any exception during the round
trip yields `False` and never propagates (the `try`/`except` of the source
is the `selectOneOk` observable of the collaborator). -/
def _is_connection_valid (conn : Handle) : Bool :=
  if conn.is_closed then false else conn.selectOneOk

/-- `_try_get_pooled_connection`: under the pool lock, look up the key; if
absent return `none`; if present and valid, remove the entry and return
the handle; if present and invalid, remove the entry and return `none`.
Returns the updated pool together with the optional handle. -/
def _try_get_pooled_connection (credentials : ExasolCredentials) (pool : Pool) :
    Pool × Option Handle :=
  let pool_key := _get_pool_key credentials
  match poolFind pool pool_key with
  | none => (pool, none)
  | some conn =>
      if _is_connection_valid conn then (poolErase pool pool_key, some conn)
      else (poolErase pool pool_key, none)

/-- `_close_handle`: return the connection to the pool instead of closing
it.  No-op when the handle or the credentials are `None`; otherwise, under
the pool lock, insert only when the handle is still valid and the key is
not already present (short-circuit `and`, validity evaluated first). -/
def _close_handle (connection : DbtConnection) (pool : Pool) : Pool :=
  match connection.handle, connection.credentials with
  | some h, some credentials =>
      let pool_key := _get_pool_key credentials
      if _is_connection_valid h && !(poolFind pool pool_key).isSome then
        poolInsert pool pool_key h
      else pool
  | _, _ => pool

/-- `_parse_protocol_version`: lower-case the token; `v1`, `v2`, `v3` map
to the driver constants (modelled `1`, `2`, `3`); anything else raises
`DbtRuntimeError` naming the offending token. -/
def _parse_protocol_version (protocol_version_str : String) : Except Err Nat :=
  if pyLower protocol_version_str = "v1" then .ok 1
  else if pyLower protocol_version_str = "v2" then .ok 2
  else if pyLower protocol_version_str = "v3" then .ok 3
  else .error (.dbtRuntimeError (protocol_version_str ++ " is not a valid protocol version."))

/-- `_build_ssl_options`: no TLS options without encryption; with
encryption, `ssl.CERT_REQUIRED` (2) when validating the server
certificate, else `ssl.CERT_NONE` (0). -/
def _build_ssl_options (credentials : ExasolCredentials) : Option Nat :=
  if !credentials.encryption then none
  else if credentials.validate_server_certificate then some 2
  else some 0

/-- Modelled from the spec: the retry/backoff collaborator
`SQLConnectionManager.retry_connection` of the external dbt-adapters
base library (its code is not part of this repository).  Per the spec,
the factory is attempted up to `retries + 1` total attempts; only a
designated retryable error class triggers a retry (with a blocking
inter-attempt delay, irrelevant here); any other exception aborts
immediately after the first failure with no further attempts; exhaustion
of attempts surfaces a connection-failure signal.  The factory is the
attempt-indexed outcome function `outcomes`; the result pairs the number
of factory invocations with the final outcome.  `attempts` is the number
of attempts still allowed and starts at `retries + 1 ≥ 1`. -/
def retryAttempts (outcomes : Nat → Except Err Handle) (retryable : Err → Bool) :
    Nat → Nat → Nat × Except Err Handle
  | _, 0 => (0, .error (.failedToConnect "connection failure"))
  | idx, 1 =>
      match outcomes idx with
      | .ok h => (1, .ok h)
      | .error e =>
          if retryable e then (1, .error (.failedToConnect "connection failure"))
          else (1, .error e)
  | idx, n + 2 =>
      match outcomes idx with
      | .ok h => (1, .ok h)
      | .error e =>
          if retryable e then
            let r := retryAttempts outcomes retryable (idx + 1) (n + 1)
            (r.1 + 1, r.2)
          else (1, .error e)

/-- Modelled from the spec: `retry_connection` as called by `open`, with
`retry_limit = credentials.retries` additional attempts beyond the first;
on success the connection's handle is set and its state marked open. -/
def retry_connection (connection : DbtConnection) (outcomes : Nat → Except Err Handle)
    (startIdx : Nat) (retry_limit : Nat) (retryable : Err → Bool) :
    Nat × Except Err DbtConnection :=
  let r := retryAttempts outcomes retryable startIdx (retry_limit + 1)
  (r.1, r.2.map (fun h => { connection with handle := some h, state := "open" }))

/-- `ExasolConnectionManager.open`: no-op if already open; else try the
pool; on a pooled hit adopt the handle and mark open; else parse the
protocol version (hard configuration error on failure) and fall through
to `retry_connection` with `retryable_exceptions = [pyexasol.ExaError]`.
The factory (`_create_connection`, a network action of the external
driver) is the outcome function `outcomes` starting at index `startIdx`;
the result is the updated pool, the number of factory invocations, and
the outcome. -/
def openConn (outcomes : Nat → Except Err Handle) (startIdx : Nat) (pool : Pool)
    (connection : DbtConnection) : Pool × Nat × Except Err DbtConnection :=
  if connection.state = "open" then (pool, 0, .ok connection)
  else
    match connection.credentials with
    | none => (pool, 0, .error (.otherError "AttributeError"))
    | some credentials =>
        let pr := _try_get_pooled_connection credentials pool
        match pr.2 with
        | some pooled_conn =>
            (pr.1, 0, .ok { connection with handle := some pooled_conn, state := "open" })
        | none =>
            match _parse_protocol_version credentials.protocol_version with
            | .error e => (pr.1, 0, .error e)
            | .ok _ =>
                let r := retry_connection connection outcomes startIdx
                  credentials.retries Err.isExaError
                (pr.1, r.1, r.2)

/-- The loop body of `initialize_pool`: `connections_to_create` times,
build a fresh `init`-state connection for the credentials, `open` it, and
immediately `_close_handle` it so it is returned to the pool.  Threads the
pool and the factory outcome index; an exception from `open` propagates.
Returns the final pool and the total number of factory invocations. -/
def initPoolLoop (outcomes : Nat → Except Err Handle) (credentials : ExasolCredentials) :
    Nat → Nat → Pool → Except Err (Pool × Nat)
  | 0, idx, pool => .ok (pool, idx)
  | n + 1, idx, pool =>
      let conn : DbtConnection :=
        { state := "init", handle := none, credentials := some credentials }
      match openConn outcomes idx pool conn with
      | (_, _, .error e) => .error e
      | (pool1, cnt, .ok conn1) =>
          initPoolLoop outcomes credentials n (idx + cnt) (_close_handle conn1 pool1)

/-- `initialize_pool`: under the pool lock count the existing valid entry
for the key (`1` if present and valid, else `0`, the pool holding at most
one entry per key); then run the open/close loop
`max(0, size - existing_count)` times (`Nat` subtraction is the
`max(0, ·)`).  Returns the final pool and the number of factory
invocations. -/
def initialize_pool (outcomes : Nat → Except Err Handle) (credentials : ExasolCredentials)
    (size : Nat) (pool : Pool) : Except Err (Pool × Nat) :=
  let pool_key := _get_pool_key credentials
  let existing_count :=
    match poolFind pool pool_key with
    | some h => if _is_connection_valid h then 1 else 0
    | none => 0
  initPoolLoop outcomes credentials (size - existing_count) 0 pool

/-! ## Pool operation sequences (for the per-key uniqueness invariant) -/

/-- One pool operation: a put (a handle released through `_close_handle`)
or a get (a lookup through `_try_get_pooled_connection`). -/
inductive PoolOp where
  | put (connection : DbtConnection)
  | get (credentials : ExasolCredentials)
deriving DecidableEq, Repr

/-- Apply one pool operation. -/
def applyPoolOp (pool : Pool) : PoolOp → Pool
  | .put connection => _close_handle connection pool
  | .get credentials => (_try_get_pooled_connection credentials pool).1

/-- Apply a sequence of pool operations in order. -/
def applyPoolOps (pool : Pool) (ops : List PoolOp) : Pool :=
  ops.foldl applyPoolOp pool

/-- Number of pool entries bound to a key. -/
def poolCountKey (pool : Pool) (k : String) : Nat :=
  (pool.filter (fun e => e.1 == k)).length

/-! ## Lock/network event traces

For the concurrency claim we instrument the pool operations with the
events they perform, in order: acquiring/releasing `_pool_lock`, the
`SELECT 1` validation round trip (a network call), and a factory
connection-open (a network call).  The traces below follow the `with
cls._pool_lock:` blocks of the source line by line. -/

/-- Instrumentation events. -/
inductive Ev where
  | acquire
  | release
  | netValidate
  | netOpen
deriving DecidableEq, Repr

/-- Events of `_is_connection_valid`: the `SELECT 1` network round trip
happens unless the handle is already marked closed. -/
def validTrace (h : Handle) : List Ev :=
  if h.is_closed then [] else [.netValidate]

/-- Event trace of `_try_get_pooled_connection`: its whole body is the
`with cls._pool_lock:` block, and when the key is present the
`_is_connection_valid` call runs inside it. -/
def tryGetTrace (credentials : ExasolCredentials) (pool : Pool) : List Ev :=
  [.acquire] ++
    (match poolFind pool (_get_pool_key credentials) with
     | none => []
     | some conn => validTrace conn) ++ [.release]

/-- Event trace of `_close_handle`: when the handle and credentials are
present, the `with cls._pool_lock:` block runs `_is_connection_valid`
inside it (short-circuit `and`, validity evaluated first). -/
def closeHandleTrace (connection : DbtConnection) (_pool : Pool) : List Ev :=
  match connection.handle, connection.credentials with
  | some h, some _ => [.acquire] ++ validTrace h ++ [.release]
  | _, _ => []

/-- Event trace of the existence check at the head of `initialize_pool`:
a `with cls._pool_lock:` block whose condition validates the pooled handle
inside the lock when the key is present. -/
def warmCheckTrace (credentials : ExasolCredentials) (pool : Pool) : List Ev :=
  [.acquire] ++
    (match poolFind pool (_get_pool_key credentials) with
     | none => []
     | some conn => validTrace conn) ++ [.release]

/-- Event trace of `open` on the factory fall-through path: the pool
lookup trace, then one `netOpen` per factory invocation, after the lock
has been released. -/
def openTrace (outcomes : Nat → Except Err Handle) (pool : Pool)
    (connection : DbtConnection) : List Ev :=
  if connection.state = "open" then []
  else
    match connection.credentials with
    | none => []
    | some credentials =>
        tryGetTrace credentials pool ++
          (match (_try_get_pooled_connection credentials pool).2 with
           | some _ => []
           | none =>
               match _parse_protocol_version credentials.protocol_version with
               | .error _ => []
               | .ok _ =>
                   List.replicate (openConn outcomes 0 pool connection).2.1 .netOpen)

/-- Whether some occurrence of `target` in the trace happens while the
lock depth is positive, starting from depth `d`. -/
def evWhileLocked (target : Ev) (d : Nat) : List Ev → Bool
  | [] => false
  | .acquire :: es => evWhileLocked target (d + 1) es
  | .release :: es => evWhileLocked target (d - 1) es
  | e :: es => (decide (e = target) && decide (0 < d)) || evWhileLocked target d es

/-- Whether some occurrence of `target` in the trace happens while the
lock depth is zero, starting from depth `d`. -/
def evWhileUnlocked (target : Ev) (d : Nat) : List Ev → Bool
  | [] => false
  | .acquire :: es => evWhileUnlocked target (d + 1) es
  | .release :: es => evWhileUnlocked target (d - 1) es
  | e :: es => (decide (e = target) && decide (d = 0)) || evWhileUnlocked target d es

/-! ## The statement dispatcher (`ExasolCursor`)

A live connection (`ExasolConnection`, subclass of the driver's
`ExaConnection`) is modelled as `PyConn`: it logs the SQL texts executed
on it, in order, and deterministically supplies for each execution either
an `ExaQueryError` (the driver rejecting the statement) or a statement
handle.  A statement handle `StmtR` records which execution produced it
and carries the fetch behaviour the driver gives it. -/

/-- The driver's statement object (`ExaStatement`), identified by the
index of the execution that produced it and the SQL text, and carrying
its fetch outcomes. -/
structure StmtR where
  tag : Nat
  sql : String
  fetchoneR : Except Err (Option (List Val))
  fetchmanyR : Nat → Except Err (List (List Val))
  fetchallR : Except Err (List (List Val))

/-- A live connection: the ordered log of executed SQL texts, the driver's
response policy (`respond n sql = some msg` makes the `n`-th execution
raise `ExaQueryError msg`), the statement produced for each successful
execution, and the adapter-level session attributes. -/
structure PyConn where
  executed : List String := []
  respond : Nat → String → Option String := fun _ _ => none
  stmtFor : Nat → String → StmtR
  imports : List (String × String × Option String) := []
  row_separator : String := "LF"
  timestamp_format : String := "YYYY-MM-DDTHH:MI:SS.FF6"

/-- `connection.execute(sql)` on the driver: either raises
`ExaQueryError` (per the response policy) or appends the text to the
execution log and returns the statement handle. -/
def PyConn.exec (c : PyConn) (sql : String) : Except Err (PyConn × StmtR) :=
  match c.respond c.executed.length sql with
  | some msg => .error (.exaQueryError msg)
  | none =>
      .ok ({ c with executed := c.executed ++ [sql] }, c.stmtFor c.executed.length sql)

/-- `ExasolCursor`: holds its connection and the optional active
statement; `array_size` is the class attribute, `1`. -/
structure Cursor where
  connection : PyConn
  stmt : Option StmtR := none
  array_size : Nat := 1

/-- `ExasolCursor(connection)`: fresh cursor, `stmt = None`. -/
def Cursor.make (connection : PyConn) : Cursor :=
  { connection := connection, stmt := none }

/-- The module-level error text `_UNSET_STATEMENT_ERROR`. -/
def _UNSET_STATEMENT_ERROR : String := "Cannot fetch on unset statement"

/-- The multi-statement batch loop of `ExasolCursor.execute`: `for sql in
sqls: self.stmt = self.connection.execute(sql)` — each statement executes
on the same connection in order, the cursor's `stmt` reassigned each
time; a driver exception propagates untranslated. -/
def execBatch (cur : Cursor) : List String → Except Err Cursor
  | [] => .ok cur
  | sql :: rest =>
      match cur.connection.exec sql with
      | .error e => .error e
      | .ok (conn1, st) =>
          execBatch { cur with connection := conn1, stmt := some st } rest

/-- `ExasolCursor.execute(query)`: three request shapes.  A `0CSV|` prefix
selects the bulk-load path (`import_from_file`, an external driver action
recorded in the connection's import log; the cursor's `stmt` is left
unchanged).  A query containing `|SEPARATEMEPLEASE|` selects the batch
path.  Anything else executes directly, translating a driver
`ExaQueryError` into `DbtDatabaseError("Exasol Query Error: " + msg)`. -/
def Cursor.execute (cur : Cursor) (query : String) : Except Err Cursor :=
  if pyStartsWith query "0CSV|" then
    let parts := (pySplitAtMost query "|" 2).drop 1
    let table_path := parts.headD ""
    let columns_csv := if parts.length > 1 then some (parts.getD 1 "") else none
    match pySplitAtMost table_path "." 1 with
    | [schema, table_name] =>
        .ok { cur with connection :=
          { cur.connection with imports :=
              cur.connection.imports ++ [(schema, table_name, columns_csv)] } }
    | _ => .error (.otherError "ValueError: not enough values to unpack")
  else if pyContains query "|SEPARATEMEPLEASE|" then
    execBatch cur (pySplit query "|SEPARATEMEPLEASE|")
  else
    match cur.connection.exec query with
    | .ok (conn1, st) => .ok { cur with connection := conn1, stmt := some st }
    | .error (.exaQueryError m) =>
        .error (.dbtDatabaseError ("Exasol Query Error: " ++ m))
    | .error e => .error e

/-- `ExasolCursor.fetchone`: `RuntimeError(_UNSET_STATEMENT_ERROR)` when no
statement is set, else the statement's fetchone. -/
def Cursor.fetchone (cur : Cursor) : Except Err (Option (List Val)) :=
  match cur.stmt with
  | none => .error (.runtimeError _UNSET_STATEMENT_ERROR)
  | some st => st.fetchoneR

/-- `ExasolCursor.fetchmany`: default the size to `array_size` first, then
`RuntimeError(_UNSET_STATEMENT_ERROR)` when no statement is set, else the
statement's fetchmany. -/
def Cursor.fetchmany (cur : Cursor) (size : Option Nat) : Except Err (List (List Val)) :=
  let sz := match size with
    | none => cur.array_size
    | some n => n
  match cur.stmt with
  | none => .error (.runtimeError _UNSET_STATEMENT_ERROR)
  | some st => st.fetchmanyR sz

/-- `ExasolCursor.fetchall`: `RuntimeError(_UNSET_STATEMENT_ERROR)` when no
statement is set, else the statement's fetchall. -/
def Cursor.fetchall (cur : Cursor) : Except Err (List (List Val)) :=
  match cur.stmt with
  | none => .error (.runtimeError _UNSET_STATEMENT_ERROR)
  | some st => st.fetchallR

/-! ## The result materializer

`get_result_from_cursor(cursor, limit)` takes any cursor-shaped object
(`cursor: Any`; the unit tests call it with mocks), reading only its
`description` (either `None` or a list of column tuples, of which the code
uses fields `[0]` name and `[1]` type string) and its
`fetchmany`/`fetchall`.  `CursorData` carries exactly those observables.
The external scalar decoders `decimal.Decimal` and
`dateutil.parser.parse` are the parameters `decOf` and `tsOf`. -/

/-- A cursor as the materializer observes it. -/
structure CursorData where
  description : Option (List (String × String))
  fetchmanyR : Int → Except Err (List (List Val))
  fetchallR : Except Err (List (List Val))

/-- `_fetch_rows`: `if limit:` — Python truthiness, so `None` **and** `0`
both take the `fetchall` branch, and only a non-zero limit routes through
`fetchmany(limit)`. -/
def _fetch_rows (cursor : CursorData) (limit : Option Int) : Except Err (List (List Val)) :=
  if (match limit with
      | none => false
      | some n => n != 0) then
    cursor.fetchmanyR (limit.getD 0)
  else cursor.fetchallR

/-- `_needs_type_conversion`: the column converts only when there is at
least one row and the first row's value at the column is a `str`. -/
def _needs_type_conversion (rows : List (List Val)) (col_idx : Nat) : Bool :=
  match rows with
  | [] => false
  | r :: _ =>
      match r.getD col_idx Val.vnone with
      | Val.vstr _ => true
      | _ => false

/-- The shared shape of the two conversion loops: every non-`None` value
in the column is replaced by the decoder's output (on a copy of the row);
`None` values are left untouched and never reach the decoder; a decoder
exception propagates. -/
def _convert_column_with (conv : Val → Except Err Val) :
    List (List Val) → Nat → Except Err (List (List Val))
  | [], _ => .ok []
  | row :: rest, col_idx =>
      match (match row.getD col_idx Val.vnone with
             | Val.vnone => Except.ok row
             | v => (conv v).map (fun w => row.set col_idx w)) with
      | .error e => .error e
      | .ok row1 =>
          match _convert_column_with conv rest col_idx with
          | .error e => .error e
          | .ok rest1 => .ok (row1 :: rest1)

/-- `_convert_column_to_decimal`, with the external `decimal.Decimal`
constructor as the decoder parameter `decOf`. -/
def _convert_column_to_decimal (decOf : Val → Except Err Val) (rows : List (List Val))
    (col_idx : Nat) : Except Err (List (List Val)) :=
  _convert_column_with decOf rows col_idx

/-- `_convert_column_to_timestamp`, with the external
`dateutil.parser.parse` as the decoder parameter `tsOf`. -/
def _convert_column_to_timestamp (tsOf : Val → Except Err Val) (rows : List (List Val))
    (col_idx : Nat) : Except Err (List (List Val)) :=
  _convert_column_with tsOf rows col_idx

/-- `_apply_type_conversions`: skip unless conversion is needed; `DECIMAL`
and `BIGINT` columns decode as decimals, column types beginning with
`TIMESTAMP` decode as timestamps, every other type passes through. -/
def _apply_type_conversions (decOf tsOf : Val → Except Err Val) (rows : List (List Val))
    (col_idx : Nat) (col_type : String) : Except Err (List (List Val)) :=
  if !(_needs_type_conversion rows col_idx) then .ok rows
  else if ["DECIMAL", "BIGINT"].contains col_type then
    _convert_column_to_decimal decOf rows col_idx
  else if pyStartsWith col_type "TIMESTAMP" then
    _convert_column_to_timestamp tsOf rows col_idx
  else .ok rows

/-- The materialized table: ordered column names plus converted rows. -/
structure TypedTable where
  column_names : List String
  rows : List (List Val)
deriving DecidableEq, Repr

/-- Modelled from the spec: the external table builders
(`SQLConnectionManager.process_results` and dbt-common's
`table_from_data_flat`, neither part of this repository) pair each row's
values with the column names in describe order — each row contributes
exactly one value per column. -/
def buildTable (column_names : List String) (rows : List (List Val)) : TypedTable :=
  { column_names := column_names,
    rows := rows.map (fun r => r.take column_names.length) }

/-- The per-column loop of `get_result_from_cursor`: walk the description
in order, converting column `idx` by its type string. -/
def applyAllConversions (decOf tsOf : Val → Except Err Val) :
    List (String × String) → Nat → List (List Val) → Except Err (List (List Val))
  | [], _, rows => .ok rows
  | col :: rest, idx, rows =>
      match _apply_type_conversions decOf tsOf rows idx col.2 with
      | .error e => .error e
      | .ok rows1 => applyAllConversions decOf tsOf rest (idx + 1) rows1

/-- `get_result_from_cursor`: with no description (`None`), an empty
table; otherwise fetch rows per the limit, convert each described column
in order, and build the table from the collected column names and the
converted rows. -/
def get_result_from_cursor (decOf tsOf : Val → Except Err Val) (cursor : CursorData)
    (limit : Option Int) : Except Err TypedTable :=
  match cursor.description with
  | none => .ok (buildTable [] [])
  | some desc =>
      match _fetch_rows cursor limit with
      | .error e => .error e
      | .ok rows =>
          match applyAllConversions decOf tsOf desc 0 rows with
          | .error e => .error e
          | .ok rows1 => .ok (buildTable (desc.map (fun c => c.1)) rows1)

/-! ## Concrete external decoders (for evaluation witnesses)

The theorems about the materializer quantify over the decoders; the
witnesses instantiate them with these executable models of the external
collaborators. -/

/-- All-digit string to a number. -/
def parseDigits (l : List Char) : Option Nat :=
  if l.isEmpty then none
  else if l.all Char.isDigit then
    some (l.foldl (fun a c => a * 10 + (c.toNat - 48)) 0)
  else none

/-- Modelled from the spec: `decimal.Decimal` applied to a string — an
optional sign, an integer part, and an optional fractional part parse to
an exact arbitrary-precision decimal, kept as mantissa and decimal scale
(`"123.45"` parses to mantissa 12345, scale 2, meaning 12345 / 10^2);
other shapes raise `InvalidOperation`. -/
def parseDecString (s : String) : Option (Int × Nat) :=
  let signBody : Int × List Char :=
    match s.data with
    | '-' :: rest => (-1, rest)
    | '+' :: rest => (1, rest)
    | l => (1, l)
  match pySplit (String.mk signBody.2) "." with
  | [ip] => (parseDigits ip.data).map (fun n => ((signBody.1 * n : Int), 0))
  | [ip, fp] =>
      if ip.isEmpty && fp.isEmpty then none
      else
        match parseDigits ('0' :: ip.data), parseDigits ('0' :: fp.data) with
        | some i, some f =>
            some ((signBody.1 * (i * 10 ^ fp.length + f) : Int), fp.length)
        | _, _ => none
  | _ => none

/-- Modelled from the spec: `decimal.Decimal` as a row-value decoder — a
string parses per `parseDecString`, a native integer converts exactly,
anything else raises. -/
def pyDecimal : Val → Except Err Val
  | .vstr s =>
      match parseDecString s with
      | some q => .ok (.vdec q.1 q.2)
      | none => .error (.otherError "decimal.InvalidOperation")
  | .vint n => .ok (.vdec n 0)
  | _ => .error (.otherError "decimal conversion error")

/-- Modelled from the spec: the external general date/time parser
(`dateutil.parser.parse`) on `"YYYY-MM-DD HH:MM:SS"`-shaped strings;
other shapes raise. -/
def pyParseTs : Val → Except Err Val
  | .vstr s =>
      (match pySplit s " " with
       | [d, t] =>
           (match pySplit d "-", pySplit t ":" with
            | [y, mo, da], [h, mi, se] =>
                (match parseDigits y.data, parseDigits mo.data, parseDigits da.data,
                       parseDigits h.data, parseDigits mi.data, parseDigits se.data with
                 | some yv, some mov, some dav, some hv, some miv, some sev =>
                     .ok (.vts ⟨yv, mov, dav, hv, miv, sev⟩)
                 | _, _, _, _, _, _ => .error (.otherError "ParserError"))
            | _, _ => .error (.otherError "ParserError"))
       | _ => .error (.otherError "ParserError"))
  | _ => .error (.otherError "ParserError")

/-! ## Decoder for the `repr` encoding (proof infrastructure)

To prove that distinct key-part tuples feed distinct texts into the hash,
we show the `repr` encoding is a prefix code by exhibiting a decoder and
a framed round trip. -/

/-- Value of a lower-case hex digit character. -/
def hexVal (c : Char) : Nat :=
  if c.toNat ≤ 57 then c.toNat - 48 else c.toNat - 87

/-- Inverse of the single-character escapes `\n`, `\r`, `\t`, `\\`, `\q`. -/
def unescapeChar (d : Char) : Char :=
  if d = 'n' then '\n'
  else if d = 'r' then '\r'
  else if d = 't' then '\t'
  else d

/-- Decode an escaped `repr` body up to the closing quote `q`; returns the
decoded content and the remainder after the closing quote. -/
def unescape (q : Char) : List Char → Option (List Char × List Char)
  | [] => none
  | c :: rest =>
      if c = q then some ([], rest)
      else if c = '\\' then
        match rest with
        | [] => none
        | 'x' :: h1 :: h2 :: rest2 =>
            (unescape q rest2).map
              (fun p => (Char.ofNat (16 * hexVal h1 + hexVal h2) :: p.1, p.2))
        | d :: rest2 =>
            (unescape q rest2).map (fun p => (unescapeChar d :: p.1, p.2))
      else (unescape q rest).map (fun p => (c :: p.1, p.2))
termination_by l => l.length
decreasing_by all_goals simp_arith [List.length_cons]

/-! ## Concrete fixtures for evaluation witnesses -/

/-- A deterministic statement factory for concrete connections. -/
def fixStmt (n : Nat) (sql : String) : StmtR :=
  ⟨n, sql, .ok none, fun _ => .ok [], .ok []⟩

/-- A concrete live connection that accepts every statement. -/
def fixConn : PyConn :=
  { stmtFor := fixStmt }

/-- Concrete credentials (the unit-test profile). -/
def fixCreds : ExasolCredentials :=
  { dsn := "localhost:8563", database := "TEST_DB",
    schema := "TEST_SCHEMA", user := "test_user" }

/-- Concrete credentials differing from `fixCreds` only in the dsn. -/
def fixCredsB : ExasolCredentials :=
  { fixCreds with dsn := "localhost:8564" }

/-- A live, valid pooled handle. -/
def fixHandle : Handle := ⟨1, false, true⟩

/-- An already-closed (invalid) pooled handle. -/
def fixHandleClosed : Handle := ⟨2, true, true⟩

/-- A factory that always succeeds with fresh valid handles. -/
def fixOutcomes : Nat → Except Err Handle :=
  fun i => .ok ⟨100 + i, false, true⟩

/-- A factory failing every attempt with the retryable driver error. -/
def fixFailRetryable : Nat → Except Err Handle :=
  fun _ => .error (.exaError "connection refused")

/-- A factory failing at once with a non-retryable error. -/
def fixFailFatal : Nat → Except Err Handle :=
  fun _ => .error (.otherError "boom")

/-- A concrete cursor for the materializer. -/
def fixCursorData : CursorData :=
  { description := some [("amount", "DECIMAL")],
    fetchmanyR := fun _ => .ok [[.vstr "1"]],
    fetchallR := .ok [[.vstr "123.45"], [.vnone]] }

/-- A concrete zero-column cursor for the materializer. -/
def fixCursorNoCols : CursorData :=
  { description := some [],
    fetchmanyR := fun _ => .ok [],
    fetchallR := .ok [] }

/-- A concrete released dbt connection (valid handle, test credentials). -/
def fixDbtConn : DbtConnection :=
  { state := "open", handle := some fixHandle, credentials := some fixCreds }

/-- A concrete released dbt connection whose handle is already closed. -/
def fixDbtConnClosed : DbtConnection :=
  { state := "open", handle := some fixHandleClosed, credentials := some fixCreds }

/-- A concrete init-state dbt connection for the opener. -/
def fixDbtConnInit : DbtConnection :=
  { state := "init", handle := none, credentials := some fixCreds }

/-- The keys of a pool, without duplicates: the per-key uniqueness
invariant of the pool map. -/
def poolKeysNodup (p : Pool) : Prop :=
  (p.map Prod.fst).Nodup

/-! # Theorems settling the claims -/

/-- C10: in result materialization the row limit is tested for
truthiness, not presence: a requested limit of `0` takes the `fetchall`
path exactly like `None` (no limit), and only a non-zero limit routes
through `fetchmany`. -/
theorem claim_C10_limit_truthiness (cursor : CursorData) :
    _fetch_rows cursor (some 0) = cursor.fetchallR ∧
    _fetch_rows cursor none = cursor.fetchallR ∧
    ∀ n : Int, n ≠ 0 → _fetch_rows cursor (some n) = cursor.fetchmanyR n := by
  refine ⟨rfl, rfl, fun n hn => ?_⟩
  simp [_fetch_rows, hn]

/-- Witness for C10 at a concrete cursor: limit `0` fetches all rows,
limit `2` routes through `fetchmany 2`. -/
theorem claim_C10_witness :
    _fetch_rows fixCursorData (some 0) = fixCursorData.fetchallR ∧
    _fetch_rows fixCursorData (some 2) = fixCursorData.fetchmanyR 2 :=
  ⟨(claim_C10_limit_truthiness fixCursorData).1,
   (claim_C10_limit_truthiness fixCursorData).2.2 2 (by decide)⟩

/-- C9: every fetch operation of the dispatcher (`fetchone`, `fetchmany`
— whose size defaults to `array_size = 1` —, `fetchall`), called with no
active statement (as on a fresh cursor, before any successful execute),
raises the state-precondition `RuntimeError` carrying
`_UNSET_STATEMENT_ERROR`. -/
theorem claim_C9_fetch_before_execute (cur : Cursor) (h : cur.stmt = none) :
    cur.fetchone = .error (.runtimeError _UNSET_STATEMENT_ERROR) ∧
    (∀ size, cur.fetchmany size = .error (.runtimeError _UNSET_STATEMENT_ERROR)) ∧
    cur.fetchall = .error (.runtimeError _UNSET_STATEMENT_ERROR) ∧
    ∀ c, (Cursor.make c).stmt = none ∧ (Cursor.make c).array_size = 1 := by
  refine ⟨?_, fun size => ?_, ?_, fun c => ⟨rfl, rfl⟩⟩ <;>
    simp [Cursor.fetchone, Cursor.fetchmany, Cursor.fetchall, h]

/-- Witness for C9 on a concrete fresh cursor. -/
theorem claim_C9_witness :
    (Cursor.make fixConn).fetchone = .error (.runtimeError _UNSET_STATEMENT_ERROR) ∧
    (Cursor.make fixConn).fetchmany none = .error (.runtimeError _UNSET_STATEMENT_ERROR) ∧
    (Cursor.make fixConn).fetchall = .error (.runtimeError _UNSET_STATEMENT_ERROR) :=
  ⟨(claim_C9_fetch_before_execute _ rfl).1,
   (claim_C9_fetch_before_execute _ rfl).2.1 none,
   (claim_C9_fetch_before_execute _ rfl).2.2.1⟩

/-- Helper: when the driver accepts every statement, the batch loop
executes all texts in order on the same connection and leaves the
statement of the last text as the cursor's active statement. -/
theorem execBatch_ok_spec (r : Nat → String → Option String)
    (hok : ∀ n s, r n s = none) :
    ∀ (sqls : List String) (cur : Cursor), cur.connection.respond = r →
      ∃ cur1, execBatch cur sqls = .ok cur1 ∧
        cur1.connection.executed = cur.connection.executed ++ sqls ∧
        cur1.connection.respond = r ∧
        cur1.connection.stmtFor = cur.connection.stmtFor ∧
        (sqls = [] → cur1.stmt = cur.stmt) ∧
        (sqls ≠ [] → cur1.stmt = some (cur.connection.stmtFor
          (cur.connection.executed.length + (sqls.length - 1)) (sqls.getLastD ""))) := by
  intro sqls
  induction sqls with
  | nil =>
      intro cur hr
      exact ⟨cur, rfl, by simp, hr, rfl, fun _ => rfl, fun hne => absurd rfl hne⟩
  | cons sql rest ih =>
      intro cur hr
      have hexec : cur.connection.exec sql =
          .ok ({ cur.connection with executed := cur.connection.executed ++ [sql] },
               cur.connection.stmtFor cur.connection.executed.length sql) := by
        simp [PyConn.exec, hr, hok]
      obtain ⟨cur1, h1, h2, h3, h4, h5, h6⟩ := ih
        { cur with
          connection := { cur.connection with executed := cur.connection.executed ++ [sql] },
          stmt := some (cur.connection.stmtFor cur.connection.executed.length sql) }
        hr
      refine ⟨cur1, ?_, ?_, h3, h4, fun hne => by simp at hne, fun _ => ?_⟩
      · unfold execBatch
        rw [hexec]
        exact h1
      · simpa using h2
      · rcases Decidable.em (rest = []) with hre | hre
        · subst hre
          simpa using h5 rfl
        · rw [h6 hre]
          have hlen : 0 < rest.length := List.length_pos.mpr hre
          have hidx : (cur.connection.executed ++ [sql]).length + (rest.length - 1) =
              cur.connection.executed.length + ((sql :: rest).length - 1) := by
            simp only [List.length_append, List.length_cons, List.length_nil]
            omega
          have hlast : rest.getLastD "" = (sql :: rest).getLastD "" := by
            rw [List.getLastD_cons]
            cases hg : rest.getLast? with
            | none => exact absurd (List.getLast?_eq_none_iff.mp hg) hre
            | some z => simp [List.getLastD_eq_getLast?, hg]
          rw [hidx, hlast]

/-- C5: a query containing the multi-statement separator splits on it,
each resulting statement executes sequentially in order on the same
connection (the connection's execution log is extended by exactly the
split parts, in order), and the dispatcher's active statement afterwards
is the one produced by the last part only. -/
theorem claim_C5_multi_statement_batch (cur : Cursor) (query : String)
    (hcsv : pyStartsWith query "0CSV|" = false)
    (hsep : 2 ≤ (pySplit query "|SEPARATEMEPLEASE|").length)
    (hok : ∀ n s, cur.connection.respond n s = none) :
    ∃ cur1, cur.execute query = .ok cur1 ∧
      cur1.connection.executed =
        cur.connection.executed ++ pySplit query "|SEPARATEMEPLEASE|" ∧
      cur1.stmt = some (cur.connection.stmtFor
        (cur.connection.executed.length +
          ((pySplit query "|SEPARATEMEPLEASE|").length - 1))
        ((pySplit query "|SEPARATEMEPLEASE|").getLastD "")) := by
  have hne : pySplit query "|SEPARATEMEPLEASE|" ≠ [] := by
    intro h
    rw [h] at hsep
    simp at hsep
  obtain ⟨cur1, h1, h2, _, _, _, h6⟩ :=
    execBatch_ok_spec cur.connection.respond hok (pySplit query "|SEPARATEMEPLEASE|") cur rfl
  refine ⟨cur1, ?_, h2, h6 hne⟩
  unfold Cursor.execute
  rw [hcsv]
  simp only [Bool.false_eq_true, if_false]
  have hcontains : pyContains query "|SEPARATEMEPLEASE|" = true := by
    have hl : (pySplit query "|SEPARATEMEPLEASE|").length ≠ 1 := by omega
    simp [pyContains, hl]
  rw [hcontains]
  simp only [if_true]
  exact h1

/-- Witness for C5 on the spec's example batch text. -/
theorem claim_C5_witness : ∃ cur1,
    (Cursor.make fixConn).execute "CREATE TABLE t1|SEPARATEMEPLEASE|CREATE TABLE t2" =
      .ok cur1 ∧
    cur1.connection.executed = ["CREATE TABLE t1", "CREATE TABLE t2"] ∧
    cur1.stmt = some (fixConn.stmtFor 1 "CREATE TABLE t2") := by
  obtain ⟨cur1, h1, h2, h3⟩ := claim_C5_multi_statement_batch (Cursor.make fixConn)
    "CREATE TABLE t1|SEPARATEMEPLEASE|CREATE TABLE t2"
    (by decide) (by decide) (fun n s => rfl)
  refine ⟨cur1, h1, ?_, ?_⟩
  · rw [h2]; rfl
  · rw [h3]; rfl

/-- Helper: a column whose values are all `None` passes through every
decoder unchanged and never errors, whatever the decoder does. -/
theorem convert_column_all_null (conv : Val → Except Err Val) :
    ∀ (rows : List (List Val)) (i : Nat),
      (∀ row ∈ rows, row.getD i Val.vnone = Val.vnone) →
      _convert_column_with conv rows i = .ok rows := by
  intro rows
  induction rows with
  | nil => intro i _; rfl
  | cons row rest ih =>
      intro i hall
      have hrow := hall row (by simp)
      have hrest := ih i (fun r hr => hall r (by simp [hr]))
      unfold _convert_column_with
      rw [hrow, hrest]

/-- C6: per-column decoding fires only when the first fetched row's value
for the column is a string; `DECIMAL`/`BIGINT` columns decode through the
decimal decoder and `TIMESTAMP*` columns through the timestamp decoder
(each skipping `None` cells, which never reach a decoder and never raise);
any other column type passes through unchanged; a zero-column description
materializes to an empty table without error; and with the concrete
external decoders, `"123.45"` decodes to the decimal 123.45 and
`"2024-01-15 10:30:00"` to the corresponding calendar timestamp, `None`
cells surviving as `None` in both. -/
theorem claim_C6_result_decoding (decOf tsOf : Val → Except Err Val) :
    (∀ rows i t, _needs_type_conversion rows i = false →
      _apply_type_conversions decOf tsOf rows i t = .ok rows) ∧
    (∀ rows i t, _needs_type_conversion rows i = true →
      ["DECIMAL", "BIGINT"].contains t = true →
      _apply_type_conversions decOf tsOf rows i t =
        _convert_column_to_decimal decOf rows i) ∧
    (∀ rows i t, _needs_type_conversion rows i = true →
      ["DECIMAL", "BIGINT"].contains t = false → pyStartsWith t "TIMESTAMP" = true →
      _apply_type_conversions decOf tsOf rows i t =
        _convert_column_to_timestamp tsOf rows i) ∧
    (∀ rows i t, ["DECIMAL", "BIGINT"].contains t = false →
      pyStartsWith t "TIMESTAMP" = false →
      _apply_type_conversions decOf tsOf rows i t = .ok rows) ∧
    (∀ (conv : Val → Except Err Val) rows i,
      (∀ row ∈ rows, row.getD i Val.vnone = Val.vnone) →
      _convert_column_with conv rows i = .ok rows) ∧
    (∀ cursor limit rows, cursor.description = some [] →
      _fetch_rows cursor limit = .ok rows →
      get_result_from_cursor decOf tsOf cursor limit =
        .ok { column_names := [], rows := rows.map (fun _ => ([] : List Val)) }) ∧
    _apply_type_conversions pyDecimal pyParseTs
      [[.vstr "123.45"], [.vnone]] 0 "DECIMAL" =
      .ok [[.vdec 12345 2], [.vnone]] ∧
    _apply_type_conversions pyDecimal pyParseTs
      [[.vstr "2024-01-15 10:30:00"], [.vnone]] 0 "TIMESTAMP" =
      .ok [[.vts ⟨2024, 1, 15, 10, 30, 0⟩], [.vnone]] := by
  refine ⟨?_, ?_, ?_, ?_, convert_column_all_null, ?_, by rfl, by rfl⟩
  · intro rows i t h
    simp [_apply_type_conversions, h]
  · intro rows i t h1 h2
    unfold _apply_type_conversions
    rw [h1, h2]
    simp
  · intro rows i t h1 h2 h3
    unfold _apply_type_conversions
    rw [h1, h2, h3]
    simp
  · intro rows i t h2 h3
    unfold _apply_type_conversions
    rw [h2, h3]
    simp
  · intro cursor limit rows hd hf
    unfold get_result_from_cursor
    rw [hd, hf]
    simp [applyAllConversions, buildTable]

/-- Witness for C6: a native (non-string) first value skips conversion;
the zero-column cursor materializes to the empty table; the concrete
decimal and timestamp round trips evaluate. -/
theorem claim_C6_witness :
    _apply_type_conversions pyDecimal pyParseTs [[.vint 5]] 0 "DECIMAL" =
      .ok [[.vint 5]] ∧
    get_result_from_cursor pyDecimal pyParseTs fixCursorNoCols none =
      .ok { column_names := [], rows := [] } ∧
    _apply_type_conversions pyDecimal pyParseTs
      [[.vstr "123.45"], [.vnone]] 0 "DECIMAL" =
      .ok [[.vdec 12345 2], [.vnone]] :=
  ⟨(claim_C6_result_decoding pyDecimal pyParseTs).1 [[.vint 5]] 0 "DECIMAL" (by decide),
   (claim_C6_result_decoding pyDecimal pyParseTs).2.2.2.2.2.1 fixCursorNoCols none [] rfl rfl,
   (claim_C6_result_decoding pyDecimal pyParseTs).2.2.2.2.2.2.1⟩

/-- Helper: a key is absent exactly when no entry binds it. -/
theorem poolFind_eq_none_iff (p : Pool) (k : String) :
    poolFind p k = none ↔ ∀ e ∈ p, e.1 ≠ k := by
  simp [poolFind, List.find?_eq_none]

/-- Helper: erasing preserves duplicate-free keys. -/
theorem poolKeysNodup_erase (p : Pool) (k : String) (h : poolKeysNodup p) :
    poolKeysNodup (poolErase p k) :=
  ((List.eraseP_sublist p).map Prod.fst).nodup h

/-- Helper: inserting at an absent key preserves duplicate-free keys. -/
theorem poolKeysNodup_insert (p : Pool) (k : String) (hd : Handle)
    (hfind : poolFind p k = none) (h : poolKeysNodup p) :
    poolKeysNodup (poolInsert p k hd) := by
  unfold poolKeysNodup poolInsert
  rw [List.map_append, List.nodup_append]
  refine ⟨h, by simp, ?_⟩
  intro x hx hx2
  simp only [List.map_cons, List.map_nil, List.mem_singleton] at hx2
  obtain ⟨e, he, hek⟩ := List.mem_map.mp hx
  exact (poolFind_eq_none_iff p k).mp hfind e he (by rw [hek, hx2])

/-- Helper: the pool after a lookup is either unchanged or the old pool
with the looked-up key erased. -/
theorem tryGet_pool_eq (creds : ExasolCredentials) (p : Pool) :
    (_try_get_pooled_connection creds p).1 = p ∨
    (_try_get_pooled_connection creds p).1 = poolErase p (_get_pool_key creds) := by
  unfold _try_get_pooled_connection
  dsimp only
  split
  · left; rfl
  · split
    · right; rfl
    · right; rfl

/-- Helper: a release either leaves the pool unchanged or inserts the
released handle at its (previously absent) key. -/
theorem close_handle_pool_eq (conn : DbtConnection) (p : Pool) :
    _close_handle conn p = p ∨
    ∃ hd creds, conn.handle = some hd ∧ conn.credentials = some creds ∧
      _is_connection_valid hd = true ∧
      poolFind p (_get_pool_key creds) = none ∧
      _close_handle conn p = poolInsert p (_get_pool_key creds) hd := by
  unfold _close_handle
  cases hh : conn.handle with
  | none => left; rfl
  | some hd =>
      cases hc : conn.credentials with
      | none => left; rfl
      | some creds =>
          simp only
          by_cases hcond : (_is_connection_valid hd &&
              !(poolFind p (_get_pool_key creds)).isSome) = true
          · rw [if_pos hcond]
            have hparts := (Bool.and_eq_true _ _).mp hcond
            have hfind : poolFind p (_get_pool_key creds) = none :=
              Option.not_isSome_iff_eq_none.mp (by simpa using hparts.2)
            right
            exact ⟨hd, creds, rfl, rfl, hparts.1, hfind, rfl⟩
          · rw [if_neg hcond]
            left; rfl

/-- Helper: every single pool operation preserves duplicate-free keys. -/
theorem applyPoolOp_nodup (p : Pool) (op : PoolOp) (h : poolKeysNodup p) :
    poolKeysNodup (applyPoolOp p op) := by
  cases op with
  | get creds =>
      show poolKeysNodup (_try_get_pooled_connection creds p).1
      rcases tryGet_pool_eq creds p with heq | heq <;> rw [heq]
      · exact h
      · exact poolKeysNodup_erase _ _ h
  | put conn =>
      show poolKeysNodup (_close_handle conn p)
      rcases close_handle_pool_eq conn p with heq | ⟨hd, creds, _, _, _, hfind, heq⟩ <;>
        rw [heq]
      · exact h
      · exact poolKeysNodup_insert _ _ _ hfind h

/-- Helper: any sequence of pool operations preserves duplicate-free
keys. -/
theorem applyPoolOps_nodup (ops : List PoolOp) :
    ∀ p, poolKeysNodup p → poolKeysNodup (applyPoolOps p ops) := by
  induction ops with
  | nil => intro p h; exact h
  | cons op rest ih =>
      intro p h
      exact ih (applyPoolOp p op) (applyPoolOp_nodup p op h)

/-- Helper: duplicate-free keys bound the per-key entry count by one. -/
theorem poolCountKey_le_one (p : Pool) (k : String) (h : poolKeysNodup p) :
    poolCountKey p k ≤ 1 := by
  have h2 := List.nodup_iff_count_le_one.mp h k
  rw [List.count_eq_countP, List.countP_eq_length_filter, List.filter_map] at h2
  simpa [poolCountKey, List.length_map, Function.comp] using h2

/-- C2: over any sequence of pool operations (puts via handle release,
gets via pooled-connection lookup) from the empty pool, the pool holds at
most one entry per key; a put whose key is already present leaves the
pool unchanged (the racing handle is dropped, never overwriting); a put
with an invalid handle leaves the pool unchanged; and a put inserts
exactly when the key is absent and the handle validates. -/
theorem claim_C2_at_most_one_idle_per_key :
    (∀ (ops : List PoolOp) (k : String),
      poolCountKey (applyPoolOps [] ops) k ≤ 1) ∧
    (∀ (conn : DbtConnection) (pool : Pool) (creds : ExasolCredentials),
      conn.credentials = some creds →
      (poolFind pool (_get_pool_key creds)).isSome = true →
      _close_handle conn pool = pool) ∧
    (∀ (conn : DbtConnection) (pool : Pool) (creds : ExasolCredentials) (hd : Handle),
      conn.credentials = some creds → conn.handle = some hd →
      _is_connection_valid hd = false →
      _close_handle conn pool = pool) ∧
    (∀ (conn : DbtConnection) (pool : Pool) (creds : ExasolCredentials) (hd : Handle),
      conn.credentials = some creds → conn.handle = some hd →
      _is_connection_valid hd = true →
      poolFind pool (_get_pool_key creds) = none →
      _close_handle conn pool = poolInsert pool (_get_pool_key creds) hd) := by
  refine ⟨?_, ?_, ?_, ?_⟩
  · intro ops k
    exact poolCountKey_le_one _ k (applyPoolOps_nodup ops [] (by simp [poolKeysNodup]))
  · intro conn pool creds hcred hsome
    unfold _close_handle
    cases hh : conn.handle with
    | none => rfl
    | some hd =>
        rw [hcred]
        simp only [hsome, Bool.not_true, Bool.and_false, Bool.false_eq_true, if_false]
  · intro conn pool creds hd hcred hh hinv
    unfold _close_handle
    rw [hh, hcred]
    simp only [hinv, Bool.false_and, Bool.false_eq_true, if_false]
  · intro conn pool creds hd hcred hh hval hfind
    unfold _close_handle
    rw [hh, hcred]
    simp only [hval, hfind, Option.isSome_none, Bool.not_false, Bool.and_true, if_true]

/-- Witness for C2 at concrete operations: a double release of the same
key then a get stays within one entry; a put at a present key leaves the
pool unchanged; an invalid put is dropped; a valid put at an absent key
inserts. -/
theorem claim_C2_witness :
    poolCountKey (applyPoolOps []
      [PoolOp.put fixDbtConn, PoolOp.put fixDbtConn, PoolOp.get fixCreds])
      (_get_pool_key fixCreds) ≤ 1 ∧
    _close_handle fixDbtConn (poolInsert [] (_get_pool_key fixCreds) fixHandleClosed) =
      poolInsert [] (_get_pool_key fixCreds) fixHandleClosed ∧
    _close_handle fixDbtConnClosed [] = [] ∧
    _close_handle fixDbtConn [] = poolInsert [] (_get_pool_key fixCreds) fixHandle :=
  ⟨claim_C2_at_most_one_idle_per_key.1 _ _,
   claim_C2_at_most_one_idle_per_key.2.1 fixDbtConn _ fixCreds rfl (by decide),
   claim_C2_at_most_one_idle_per_key.2.2.1 fixDbtConnClosed [] fixCreds
     fixHandleClosed rfl rfl (by decide),
   claim_C2_at_most_one_idle_per_key.2.2.2 fixDbtConn [] fixCreds
     fixHandle rfl rfl (by decide) rfl⟩

/-- Helper: lookup at an absent key returns the pool unchanged and no
handle. -/
theorem tryGet_of_find_none (creds : ExasolCredentials) (pool : Pool)
    (hfind : poolFind pool (_get_pool_key creds) = none) :
    _try_get_pooled_connection creds pool = (pool, none) := by
  unfold _try_get_pooled_connection
  dsimp only
  rw [hfind]

/-- Helper: lookup of a valid handle removes and returns it. -/
theorem tryGet_of_find_valid (creds : ExasolCredentials) (pool : Pool) (hd : Handle)
    (hfind : poolFind pool (_get_pool_key creds) = some hd)
    (hval : _is_connection_valid hd = true) :
    _try_get_pooled_connection creds pool =
      (poolErase pool (_get_pool_key creds), some hd) := by
  unfold _try_get_pooled_connection
  dsimp only
  rw [hfind]
  dsimp only
  rw [if_pos hval]

/-- Helper: lookup of an invalid handle removes it and returns no
handle. -/
theorem tryGet_of_find_invalid (creds : ExasolCredentials) (pool : Pool) (hd : Handle)
    (hfind : poolFind pool (_get_pool_key creds) = some hd)
    (hval : _is_connection_valid hd = false) :
    _try_get_pooled_connection creds pool =
      (poolErase pool (_get_pool_key creds), none) := by
  unfold _try_get_pooled_connection
  dsimp only
  rw [hfind]
  dsimp only
  rw [if_neg (by simp [hval])]

/-- Helper: `open` on a pool hit adopts the handle, marks the connection
open, and performs no factory invocation. -/
theorem openConn_pool_hit (outcomes : Nat → Except Err Handle) (startIdx : Nat)
    (pool p1 : Pool) (conn : DbtConnection) (creds : ExasolCredentials) (hd : Handle)
    (hstate : ¬conn.state = "open") (hcred : conn.credentials = some creds)
    (htry : _try_get_pooled_connection creds pool = (p1, some hd)) :
    openConn outcomes startIdx pool conn =
      (p1, 0, .ok { conn with handle := some hd, state := "open" }) := by
  unfold openConn
  rw [if_neg hstate, hcred]
  dsimp only
  rw [htry]

/-- Helper: `open` with no pooled handle reduces to the retry loop once
the protocol version parses. -/
theorem openConn_no_pool (outcomes : Nat → Except Err Handle) (startIdx : Nat)
    (pool p1 : Pool) (conn : DbtConnection) (creds : ExasolCredentials) (v : Nat)
    (hstate : ¬conn.state = "open") (hcred : conn.credentials = some creds)
    (htry : _try_get_pooled_connection creds pool = (p1, none))
    (hpv : _parse_protocol_version creds.protocol_version = .ok v) :
    openConn outcomes startIdx pool conn =
      (p1, (retryAttempts outcomes Err.isExaError startIdx (creds.retries + 1)).1,
       (retryAttempts outcomes Err.isExaError startIdx (creds.retries + 1)).2.map
         (fun h => { conn with handle := some h, state := "open" })) := by
  unfold openConn
  rw [if_neg hstate, hcred]
  dsimp only
  rw [htry]
  dsimp only
  rw [hpv]
  dsimp only
  unfold retry_connection
  dsimp only
  rw [hcred]

/-- Helper: a first successful factory attempt ends the retry loop after
exactly one invocation. -/
theorem retryAttempts_first_ok (outcomes : Nat → Except Err Handle)
    (retryable : Err → Bool) (idx n : Nat) (hd : Handle)
    (hok : outcomes idx = .ok hd) :
    retryAttempts outcomes retryable idx (n + 1) = (1, .ok hd) := by
  cases n with
  | zero => unfold retryAttempts; rw [hok]
  | succ m => unfold retryAttempts; rw [hok]

/-- Helper: when every attempt fails with a retryable error, the loop
performs all `n + 1` attempts and surfaces the connection failure. -/
theorem retryAttempts_all_retryable (outcomes : Nat → Except Err Handle)
    (retryable : Err → Bool) :
    ∀ (n idx : Nat),
      (∀ i, i ≤ n → ∃ e, outcomes (idx + i) = .error e ∧ retryable e = true) →
      retryAttempts outcomes retryable idx (n + 1) =
        (n + 1, .error (.failedToConnect "connection failure")) := by
  intro n
  induction n with
  | zero =>
      intro idx hfail
      obtain ⟨e, he, hr⟩ := hfail 0 (le_refl 0)
      simp only [Nat.add_zero] at he
      unfold retryAttempts
      rw [he]
      dsimp only
      simp [hr]
  | succ m ih =>
      intro idx hfail
      obtain ⟨e, he, hr⟩ := hfail 0 (by omega)
      simp only [Nat.add_zero] at he
      have ih2 := ih (idx + 1) (fun i hi => by
        obtain ⟨e2, he2, hr2⟩ := hfail (i + 1) (by omega)
        refine ⟨e2, ?_, hr2⟩
        rw [show idx + 1 + i = idx + (i + 1) by omega]
        exact he2)
      unfold retryAttempts
      rw [he]
      dsimp only
      simp [hr, ih2]

/-- Helper: a first non-retryable failure aborts after exactly one
invocation, propagating the error. -/
theorem retryAttempts_nonretryable (outcomes : Nat → Except Err Handle)
    (retryable : Err → Bool) (idx : Nat) (e : Err)
    (he : outcomes idx = .error e) (hr : retryable e = false) :
    ∀ n, retryAttempts outcomes retryable idx (n + 1) = (1, .error e) := by
  intro n
  cases n with
  | zero => unfold retryAttempts; rw [he]; dsimp only; simp [hr]
  | succ m => unfold retryAttempts; rw [he]; dsimp only; simp [hr]

/-- C1: with `retries = N`, no pooled handle, and every factory attempt
failing with the retryable driver error class, `open` invokes the factory
exactly `N + 1` times and surfaces the connection-failure signal; a
non-retryable first failure aborts after exactly one invocation. -/
theorem claim_C1_retry_count (outcomes : Nat → Except Err Handle) (startIdx : Nat)
    (pool : Pool) (conn : DbtConnection) (creds : ExasolCredentials) (N : Nat)
    (hstate : ¬conn.state = "open")
    (hcred : conn.credentials = some creds)
    (hfind : poolFind pool (_get_pool_key creds) = none)
    (hpv : ∃ v, _parse_protocol_version creds.protocol_version = .ok v)
    (hret : creds.retries = N) :
    ((∀ i, i ≤ N → ∃ e, outcomes (startIdx + i) = .error e ∧ e.isExaError = true) →
      openConn outcomes startIdx pool conn =
        (pool, N + 1, .error (.failedToConnect "connection failure"))) ∧
    (∀ e, outcomes startIdx = .error e → e.isExaError = false →
      openConn outcomes startIdx pool conn = (pool, 1, .error e)) := by
  obtain ⟨v, hv⟩ := hpv
  have hbase := openConn_no_pool outcomes startIdx pool pool conn creds v hstate hcred
    (tryGet_of_find_none creds pool hfind) hv
  constructor
  · intro hfail
    rw [hbase, hret]
    rw [retryAttempts_all_retryable outcomes Err.isExaError N startIdx hfail]
    simp [Except.map]
  · intro e he hr
    rw [hbase, hret]
    rw [retryAttempts_nonretryable outcomes Err.isExaError startIdx e he hr N]
    simp [Except.map]

/-- Witness for C1: with `retries = 2` and an always-retryable-failing
factory, three invocations then connection failure; with a fatal factory,
one invocation and the raw error. -/
theorem claim_C1_witness :
    openConn fixFailRetryable 0 []
      { state := "init", handle := none,
        credentials := some { fixCreds with retries := 2 } } =
      ([], 3, .error (.failedToConnect "connection failure")) ∧
    openConn fixFailFatal 0 [] fixDbtConnInit = ([], 1, .error (.otherError "boom")) :=
  ⟨(claim_C1_retry_count fixFailRetryable 0 []
      { state := "init", handle := none,
        credentials := some { fixCreds with retries := 2 } }
      { fixCreds with retries := 2 } 2 (by decide) rfl rfl ⟨3, rfl⟩ rfl).1
      (fun i _ => ⟨.exaError "connection refused", rfl, rfl⟩),
   (claim_C1_retry_count fixFailFatal 0 [] fixDbtConnInit fixCreds 1
      (by decide) rfl rfl ⟨3, rfl⟩ rfl).2 (.otherError "boom") rfl rfl⟩

/-- C3: a pooled valid handle for the descriptor's key is adopted by
`open` — that exact handle is returned, removed from the pool, and the
connection marked open, with zero factory invocations; a pooled invalid
handle is removed and the factory invoked exactly once when its first
attempt succeeds; and validity is precisely "not closed and the
`SELECT 1` round trip succeeds" (exceptions being absorbed as
invalidity). -/
theorem claim_C3_reuse_correctness (outcomes : Nat → Except Err Handle) (startIdx : Nat)
    (pool : Pool) (conn : DbtConnection) (creds : ExasolCredentials) (hd : Handle)
    (hstate : ¬conn.state = "open")
    (hcred : conn.credentials = some creds)
    (hfind : poolFind pool (_get_pool_key creds) = some hd) :
    (_is_connection_valid hd = true →
      openConn outcomes startIdx pool conn =
        (poolErase pool (_get_pool_key creds), 0,
         .ok { conn with handle := some hd, state := "open" })) ∧
    (_is_connection_valid hd = false →
      (∃ v, _parse_protocol_version creds.protocol_version = .ok v) →
      ∀ newH, outcomes startIdx = .ok newH →
      openConn outcomes startIdx pool conn =
        (poolErase pool (_get_pool_key creds), 1,
         .ok { conn with handle := some newH, state := "open" })) ∧
    (∀ k : Handle, _is_connection_valid k = true ↔
      (k.is_closed = false ∧ k.selectOneOk = true)) := by
  refine ⟨?_, ?_, ?_⟩
  · intro hval
    exact openConn_pool_hit outcomes startIdx pool _ conn creds hd hstate hcred
      (tryGet_of_find_valid creds pool hd hfind hval)
  · intro hval hpv newH hnew
    obtain ⟨v, hv⟩ := hpv
    rw [openConn_no_pool outcomes startIdx pool _ conn creds v hstate hcred
      (tryGet_of_find_invalid creds pool hd hfind hval) hv]
    rw [retryAttempts_first_ok outcomes Err.isExaError startIdx creds.retries newH hnew]
    rfl
  · intro k
    cases hcl : k.is_closed <;> simp [_is_connection_valid, hcl]

/-- Witness for C3: a pre-seeded valid handle is reused with no factory
call; a pre-seeded closed handle is evicted and the factory called
once. -/
theorem claim_C3_witness :
    openConn fixOutcomes 0 (poolInsert [] (_get_pool_key fixCreds) fixHandle)
      fixDbtConnInit =
      (poolErase (poolInsert [] (_get_pool_key fixCreds) fixHandle)
        (_get_pool_key fixCreds), 0,
       .ok { fixDbtConnInit with handle := some fixHandle, state := "open" }) ∧
    openConn fixOutcomes 0 (poolInsert [] (_get_pool_key fixCreds) fixHandleClosed)
      fixDbtConnInit =
      (poolErase (poolInsert [] (_get_pool_key fixCreds) fixHandleClosed)
        (_get_pool_key fixCreds), 1,
       .ok { fixDbtConnInit with handle := some ⟨100, false, true⟩, state := "open" }) :=
  ⟨(claim_C3_reuse_correctness fixOutcomes 0 _ fixDbtConnInit fixCreds fixHandle
      (by decide) rfl (by decide)).1 rfl,
   (claim_C3_reuse_correctness fixOutcomes 0 _ fixDbtConnInit fixCreds fixHandleClosed
      (by decide) rfl (by decide)).2.1 rfl ⟨3, rfl⟩ ⟨100, false, true⟩ rfl⟩

/-- Helper: inserting at an absent key makes it found. -/
theorem poolFind_insert_self (p : Pool) (k : String) (hd : Handle)
    (habs : poolFind p k = none) :
    poolFind (poolInsert p k hd) k = some hd := by
  unfold poolFind poolInsert
  rw [List.find?_append]
  unfold poolFind at habs
  have h2 : p.find? (fun e => e.1 == k) = none := by
    cases hf : p.find? (fun e => e.1 == k)
    · rfl
    · rw [hf] at habs; simp at habs
  rw [h2]
  simp

/-- Helper: erasing the key just inserted at an absent key restores the
pool. -/
theorem poolErase_insert (p : Pool) (k : String) (hd : Handle)
    (habs : poolFind p k = none) :
    poolErase (poolInsert p k hd) k = p := by
  unfold poolErase poolInsert
  rw [List.eraseP_append_right]
  · simp
  · intro b hb
    have := (poolFind_eq_none_iff p k).mp habs b hb
    simpa using this

/-- Helper: inserting at an absent key raises its entry count from zero
to one. -/
theorem poolCountKey_insert (p : Pool) (k : String) (hd : Handle)
    (habs : poolFind p k = none) :
    poolCountKey (poolInsert p k hd) k = 1 := by
  unfold poolCountKey poolInsert
  rw [List.filter_append]
  have hz : p.filter (fun e => e.1 == k) = [] := by
    rw [List.filter_eq_nil_iff]
    intro e he
    have := (poolFind_eq_none_iff p k).mp habs e he
    simpa using this
  rw [hz]
  simp

/-- Helper: once the pool holds a valid handle for the key in the shape
`poolInsert p key h0` (key absent from `p`), every further warm-loop
iteration reuses it (open removes it, release re-inserts it), leaving the
pool and the factory-invocation index unchanged. -/
theorem initPoolLoop_reuse (outcomes : Nat → Except Err Handle)
    (creds : ExasolCredentials) (p : Pool) (h0 : Handle)
    (hval : _is_connection_valid h0 = true)
    (habs : poolFind p (_get_pool_key creds) = none) :
    ∀ n idx, initPoolLoop outcomes creds n idx
        (poolInsert p (_get_pool_key creds) h0) =
      .ok (poolInsert p (_get_pool_key creds) h0, idx) := by
  intro n
  induction n with
  | zero => intro idx; rfl
  | succ m ih =>
      intro idx
      unfold initPoolLoop
      dsimp only
      have hopen := openConn_pool_hit outcomes idx
        (poolInsert p (_get_pool_key creds) h0)
        (poolErase (poolInsert p (_get_pool_key creds) h0) (_get_pool_key creds))
        { state := "init", handle := none, credentials := some creds } creds h0
        (by simp) rfl
        (tryGet_of_find_valid creds _ h0 (poolFind_insert_self p _ h0 habs) hval)
      rw [hopen]
      dsimp only
      rw [poolErase_insert p _ h0 habs]
      have hclose : _close_handle
          { state := "open", handle := some h0, credentials := some creds } p =
          poolInsert p (_get_pool_key creds) h0 := by
        unfold _close_handle
        dsimp only
        rw [if_pos]
        rw [Bool.and_eq_true, hval, habs]
        exact ⟨rfl, rfl⟩
      rw [hclose]
      simpa using ih idx

/-- Amended C8: `warm` runs its open/release loop
`targetSize − existingValidCount` times, but the pool keeps at most one
idle entry per key, so with `targetSize ≥ 1`, an absent key, and a
factory whose first attempt yields a valid handle, warming ends with
exactly **one** idle entry for the key and exactly one factory
invocation — not `targetSize` of either. -/
theorem claim_C8_warm_single_slot (outcomes : Nat → Except Err Handle)
    (creds : ExasolCredentials) (pool : Pool) (size : Nat) (h0 : Handle)
    (hsz : 0 < size)
    (habs : poolFind pool (_get_pool_key creds) = none)
    (hpv : ∃ v, _parse_protocol_version creds.protocol_version = .ok v)
    (hout : outcomes 0 = .ok h0)
    (hval : _is_connection_valid h0 = true) :
    initialize_pool outcomes creds size pool =
      .ok (poolInsert pool (_get_pool_key creds) h0, 1) ∧
    poolCountKey (poolInsert pool (_get_pool_key creds) h0)
      (_get_pool_key creds) = 1 := by
  obtain ⟨v, hv⟩ := hpv
  refine ⟨?_, poolCountKey_insert pool _ h0 habs⟩
  obtain ⟨m, rfl⟩ : ∃ m, size = m + 1 := ⟨size - 1, by omega⟩
  unfold initialize_pool
  dsimp only
  rw [habs]
  dsimp only
  have hsub : m + 1 - 0 = m + 1 := by omega
  rw [hsub]
  unfold initPoolLoop
  dsimp only
  have hopen := openConn_no_pool outcomes 0 pool pool
    { state := "init", handle := none, credentials := some creds } creds v
    (by simp) rfl (tryGet_of_find_none creds pool habs) hv
  rw [retryAttempts_first_ok outcomes Err.isExaError 0 creds.retries h0 hout] at hopen
  rw [hopen]
  dsimp only [Except.map]
  have hclose : _close_handle
      { state := "open", handle := some h0, credentials := some creds } pool =
      poolInsert pool (_get_pool_key creds) h0 := by
    unfold _close_handle
    dsimp only
    rw [if_pos]
    rw [Bool.and_eq_true, hval, habs]
    exact ⟨rfl, rfl⟩
  rw [hclose]
  simpa using initPoolLoop_reuse outcomes creds pool h0 hval habs m 1

/-- Counterexample to C8 as stated: from an empty pool with
`targetSize = 2` and a factory that always succeeds with valid handles,
`warm` ends with a single idle entry for the key (not at least 2) and a
single factory invocation (not `2 − 0 = 2` new connections). -/
theorem claim_C8_counterexample :
    initialize_pool fixOutcomes fixCreds 2 [] =
      .ok (poolInsert [] (_get_pool_key fixCreds) ⟨100, false, true⟩, 1) ∧
    poolCountKey (poolInsert [] (_get_pool_key fixCreds) ⟨100, false, true⟩)
      (_get_pool_key fixCreds) = 1 ∧
    ¬(2 ≤ poolCountKey (poolInsert [] (_get_pool_key fixCreds) ⟨100, false, true⟩)
      (_get_pool_key fixCreds)) := by
  exact ⟨rfl, by decide, by decide⟩

/-- Witness for the amended C8 at `targetSize = 3` from the empty
pool. -/
theorem claim_C8_witness :
    initialize_pool fixOutcomes fixCreds 3 [] =
      .ok (poolInsert [] (_get_pool_key fixCreds) ⟨100, false, true⟩, 1) ∧
    poolCountKey (poolInsert [] (_get_pool_key fixCreds) ⟨100, false, true⟩)
      (_get_pool_key fixCreds) = 1 :=
  claim_C8_warm_single_slot fixOutcomes fixCreds [] 3 ⟨100, false, true⟩
    (by decide) rfl ⟨3, rfl⟩ rfl rfl

/-- Helper: a run of factory-open events at depth zero is never inside
the lock. -/
theorem evWhileLocked_replicate_netOpen (k : Nat) :
    evWhileLocked Ev.netOpen 0 (List.replicate k Ev.netOpen) = false := by
  induction k with
  | zero => rfl
  | succ m ih => simp [List.replicate_succ, evWhileLocked, ih]

/-- Counterexample to C7 as stated: for a pooled, live (non-closed)
handle, the lookup's `SELECT 1` validation round trip happens strictly
between the lock acquisition and its release — inside the critical
section, and never outside it. -/
theorem claim_C7_counterexample :
    tryGetTrace fixCreds (poolInsert [] (_get_pool_key fixCreds) fixHandle) =
      [Ev.acquire, Ev.netValidate, Ev.release] ∧
    evWhileLocked Ev.netValidate 0
      (tryGetTrace fixCreds (poolInsert [] (_get_pool_key fixCreds) fixHandle)) = true ∧
    evWhileUnlocked Ev.netValidate 0
      (tryGetTrace fixCreds (poolInsert [] (_get_pool_key fixCreds) fixHandle)) = false :=
  ⟨rfl, by decide, by decide⟩

/-- Amended C7: the pool mutex **is** held across the `SELECT 1`
validation round trip — in the reuse lookup, the return-to-pool path, and
the pre-warm existence check, validation (whenever it happens at all,
i.e. for a present, non-closed handle) runs inside the critical section
and never outside it; only the factory's connection-opening runs outside
the lock. -/
theorem claim_C7_validation_under_lock :
    (∀ (creds : ExasolCredentials) (pool : Pool) (hd : Handle),
      poolFind pool (_get_pool_key creds) = some hd → hd.is_closed = false →
      evWhileLocked Ev.netValidate 0 (tryGetTrace creds pool) = true) ∧
    (∀ (creds : ExasolCredentials) (pool : Pool),
      evWhileUnlocked Ev.netValidate 0 (tryGetTrace creds pool) = false) ∧
    (∀ (conn : DbtConnection) (pool : Pool) (hd : Handle)
      (creds : ExasolCredentials),
      conn.handle = some hd → conn.credentials = some creds →
      hd.is_closed = false →
      evWhileLocked Ev.netValidate 0 (closeHandleTrace conn pool) = true) ∧
    (∀ (conn : DbtConnection) (pool : Pool),
      evWhileUnlocked Ev.netValidate 0 (closeHandleTrace conn pool) = false) ∧
    (∀ (creds : ExasolCredentials) (pool : Pool) (hd : Handle),
      poolFind pool (_get_pool_key creds) = some hd → hd.is_closed = false →
      evWhileLocked Ev.netValidate 0 (warmCheckTrace creds pool) = true) ∧
    (∀ (creds : ExasolCredentials) (pool : Pool),
      evWhileUnlocked Ev.netValidate 0 (warmCheckTrace creds pool) = false) ∧
    (∀ (outcomes : Nat → Except Err Handle) (pool : Pool) (conn : DbtConnection),
      evWhileLocked Ev.netOpen 0 (openTrace outcomes pool conn) = false) := by
  refine ⟨?_, ?_, ?_, ?_, ?_, ?_, ?_⟩
  · intro creds pool hd hf hcl
    unfold tryGetTrace validTrace
    rw [hf]
    dsimp only
    rw [hcl]
    rfl
  · intro creds pool
    unfold tryGetTrace validTrace
    cases hf : poolFind pool (_get_pool_key creds) with
    | none => rfl
    | some hd =>
        dsimp only
        cases hcl : hd.is_closed <;> rfl
  · intro conn pool hd creds hh hc hcl
    unfold closeHandleTrace validTrace
    rw [hh, hc]
    dsimp only
    rw [hcl]
    rfl
  · intro conn pool
    unfold closeHandleTrace validTrace
    cases hh : conn.handle with
    | none => rfl
    | some hd =>
        cases hc : conn.credentials with
        | none => rfl
        | some creds =>
            dsimp only
            cases hcl : hd.is_closed <;> rfl
  · intro creds pool hd hf hcl
    unfold warmCheckTrace validTrace
    rw [hf]
    dsimp only
    rw [hcl]
    rfl
  · intro creds pool
    unfold warmCheckTrace validTrace
    cases hf : poolFind pool (_get_pool_key creds) with
    | none => rfl
    | some hd =>
        dsimp only
        cases hcl : hd.is_closed <;> rfl
  · intro outcomes pool conn
    unfold openTrace
    by_cases hst : conn.state = "open"
    · rw [if_pos hst]; rfl
    · rw [if_neg hst]
      cases hc : conn.credentials with
      | none => rfl
      | some creds =>
          dsimp only
          cases hf : poolFind pool (_get_pool_key creds) with
          | none =>
              rw [tryGet_of_find_none creds pool hf]
              unfold tryGetTrace validTrace
              rw [hf]
              dsimp only
              cases hpv : _parse_protocol_version creds.protocol_version with
              | error e => simp [evWhileLocked]
              | ok v =>
                  simp [evWhileLocked, evWhileLocked_replicate_netOpen]
          | some hd =>
              cases hval : _is_connection_valid hd with
              | true =>
                  rw [tryGet_of_find_valid creds pool hd hf hval]
                  unfold tryGetTrace validTrace
                  rw [hf]
                  dsimp only
                  have hcl : hd.is_closed = false := by
                    by_contra hcl2
                    rw [Bool.not_eq_false] at hcl2
                    rw [_is_connection_valid, if_pos hcl2] at hval
                    exact Bool.false_ne_true hval
                  rw [hcl]
                  simp [evWhileLocked]
              | false =>
                  rw [tryGet_of_find_invalid creds pool hd hf hval]
                  unfold tryGetTrace validTrace
                  rw [hf]
                  dsimp only
                  cases hpv : _parse_protocol_version creds.protocol_version with
                  | error e =>
                      cases hcl : hd.is_closed <;>
                        simp [evWhileLocked]
                  | ok v =>
                      cases hcl : hd.is_closed <;>
                        simp [evWhileLocked, evWhileLocked_replicate_netOpen]

/-- Witness for the amended C7: at a concrete pooled live handle, the
three operations validate inside the lock and never outside, and a
concrete factory fall-through opens outside the lock. -/
theorem claim_C7_witness :
    evWhileLocked Ev.netValidate 0
      (tryGetTrace fixCreds (poolInsert [] (_get_pool_key fixCreds) fixHandle)) = true ∧
    evWhileUnlocked Ev.netValidate 0
      (tryGetTrace fixCreds (poolInsert [] (_get_pool_key fixCreds) fixHandle)) = false ∧
    evWhileLocked Ev.netValidate 0
      (closeHandleTrace fixDbtConn []) = true ∧
    evWhileLocked Ev.netValidate 0
      (warmCheckTrace fixCreds (poolInsert [] (_get_pool_key fixCreds) fixHandle)) = true ∧
    evWhileLocked Ev.netOpen 0 (openTrace fixFailRetryable [] fixDbtConnInit) = false :=
  ⟨claim_C7_validation_under_lock.1 fixCreds _ fixHandle (by decide) rfl,
   claim_C7_validation_under_lock.2.1 fixCreds _,
   claim_C7_validation_under_lock.2.2.1 fixDbtConn [] fixHandle fixCreds rfl rfl rfl,
   claim_C7_validation_under_lock.2.2.2.2.1 fixCreds _ fixHandle (by decide) rfl,
   claim_C7_validation_under_lock.2.2.2.2.2.2 fixFailRetryable [] fixDbtConnInit⟩

/-- Helper: `hexVal` inverts `hexChar` on digit values. -/
theorem hexVal_hexChar (n : Nat) (h : n < 16) : hexVal (hexChar n) = n := by
  interval_cases n <;> decide

/-- Helper: characters with equal code points are equal. -/
theorem char_eq_of_toNat_eq {c d : Char} (h : c.toNat = d.toNat) : c = d := by
  rw [← Char.ofNat_toNat c, ← Char.ofNat_toNat d, h]

/-- Helper: `pyEscape` distributes over cons. -/
theorem pyEscape_cons (q c : Char) (s : List Char) :
    pyEscape q (c :: s) = pyEscapeChar q c ++ pyEscape q s := by
  simp [pyEscape]

/-- Helper: decoding at the closing quote. -/
theorem unescape_quote (q : Char) (rest : List Char) :
    unescape q (q :: rest) = some ([], rest) := by
  rw [unescape.eq_def]
  dsimp only
  rw [if_pos rfl]

/-- Helper: decoding a literal (unescaped) character. -/
theorem unescape_lit (q c : Char) (tail : List Char)
    (h1 : ¬c = q) (h2 : ¬c = '\\') :
    unescape q (c :: tail) = (unescape q tail).map (fun p => (c :: p.1, p.2)) := by
  rw [unescape.eq_def]
  dsimp only
  rw [if_neg h1, if_neg h2]

/-- Helper: decoding a single-character escape. -/
theorem unescape_esc (q : Char) (hq : ¬('\\' : Char) = q) (d : Char)
    (hd : ¬d = 'x') (tail : List Char) :
    unescape q ('\\' :: d :: tail) =
      (unescape q tail).map (fun p => (unescapeChar d :: p.1, p.2)) := by
  rw [unescape.eq_def]
  dsimp only
  rw [if_neg hq, if_pos rfl]
  split <;> simp_all

/-- Helper: decoding a `\xNN` escape. -/
theorem unescape_hex (q : Char) (hq : ¬('\\' : Char) = q) (h1 h2 : Char)
    (tail : List Char) :
    unescape q ('\\' :: 'x' :: h1 :: h2 :: tail) =
      (unescape q tail).map
        (fun p => (Char.ofNat (16 * hexVal h1 + hexVal h2) :: p.1, p.2)) := by
  rw [unescape.eq_def]
  dsimp only
  rw [if_neg hq, if_pos rfl]
  split
  · simp_all
  · simp_all
  · rename_i hx heq
    injection heq with hd hr
    exact absurd hr.symm (hx h1 h2 tail hd.symm)

/-- Helper: the decoder inverts the `repr` body encoding, leaving the
text after the closing quote untouched (framed round trip). -/
theorem unescape_round (q : Char) (hq : q = squote ∨ q = '"') :
    ∀ (s rest : List Char),
      unescape q (pyEscape q s ++ q :: rest) = some (s, rest) := by
  have hbq : ¬('\\' : Char) = q := by rcases hq with rfl | rfl <;> decide
  have hqx : ¬q = 'x' := by rcases hq with rfl | rfl <;> decide
  have huq : unescapeChar q = q := by rcases hq with rfl | rfl <;> decide
  intro s
  induction s with
  | nil =>
      intro rest
      have he : pyEscape q [] = [] := by simp [pyEscape]
      rw [he, List.nil_append, unescape_quote]
  | cons c cs ih =>
      intro rest
      rw [pyEscape_cons, List.append_assoc]
      unfold pyEscapeChar
      split_ifs with h1 h2 h3 h4 h5 h6
      · subst h1
        simp only [List.cons_append, List.nil_append]
        rw [unescape_esc q hbq _ (by decide), ih]
        rfl
      · rw [h2]
        simp only [List.cons_append, List.nil_append]
        rw [unescape_esc q hbq q hqx, ih, huq]
        rfl
      · subst h3
        simp only [List.cons_append, List.nil_append]
        rw [unescape_esc q hbq _ (by decide), ih]
        rfl
      · subst h4
        simp only [List.cons_append, List.nil_append]
        rw [unescape_esc q hbq _ (by decide), ih]
        rfl
      · subst h5
        simp only [List.cons_append, List.nil_append]
        rw [unescape_esc q hbq _ (by decide), ih]
        rfl
      · have hlt : c.toNat < 256 := by rcases h6 with h6 | h6 <;> omega
        have hhi : c.toNat / 16 < 16 := by omega
        have hlo : c.toNat % 16 < 16 := by omega
        simp only [List.cons_append, List.nil_append]
        rw [unescape_hex q hbq _ _ _, ih]
        rw [hexVal_hexChar _ hhi, hexVal_hexChar _ hlo]
        have hn : 16 * (c.toNat / 16) + c.toNat % 16 = c.toNat := by omega
        rw [hn, Char.ofNat_toNat]
        rfl
      · simp only [List.cons_append, List.nil_append]
        rw [unescape_lit q c _ h2 h1, ih]
        rfl

/-- Helper: the escaped body followed by the closing quote is a framed
prefix code — equal encodings force equal texts and equal leftovers. -/
theorem escape_framed (q : Char) (hq : q = squote ∨ q = '"')
    (s t z w : List Char)
    (h : pyEscape q s ++ q :: z = pyEscape q t ++ q :: w) : s = t ∧ z = w := by
  have h1 := unescape_round q hq s z
  have h2 := unescape_round q hq t w
  rw [h, h2] at h1
  simp only [Option.some.injEq, Prod.mk.injEq] at h1
  exact ⟨h1.1.symm, h1.2.symm⟩

/-- Helper: the chosen quote is always one of the two quote characters. -/
theorem pyQuote_cases (s : List Char) : pyQuote s = squote ∨ pyQuote s = '"' := by
  unfold pyQuote
  split
  · right; rfl
  · left; rfl

/-- Helper: `repr` encodings are a framed prefix code. -/
theorem pyReprL_framed (s t r1 r2 : List Char)
    (h : pyReprL s ++ r1 = pyReprL t ++ r2) : s = t ∧ r1 = r2 := by
  unfold pyReprL at h
  simp only [List.cons_append, List.append_assoc, List.singleton_append] at h
  injection h with hq hbody
  rw [← hq] at hbody
  exact escape_framed (pyQuote s) (pyQuote_cases s) s t r1 r2 hbody

/-- Helper: Python `str()` of the 4-tuple is injective in all four
components. -/
theorem pyStrTuple4_inj (a b c d a2 b2 c2 d2 : String)
    (h : pyStrTuple4 a b c d = pyStrTuple4 a2 b2 c2 d2) :
    a = a2 ∧ b = b2 ∧ c = c2 ∧ d = d2 := by
  have hd : (pyStrTuple4 a b c d).data = (pyStrTuple4 a2 b2 c2 d2).data := by rw [h]
  have hp : ("(" : String).data = ['('] := rfl
  have hcm : (", " : String).data = [',', ' '] := rfl
  have hcl : (")" : String).data = [')'] := rfl
  unfold pyStrTuple4 pyRepr at hd
  simp only [String.data_append, hp, hcm, hcl, List.cons_append, List.nil_append,
    List.append_assoc] at hd
  injection hd with hopen hd1
  obtain ⟨ha, hd2⟩ := pyReprL_framed _ _ _ _ hd1
  injection hd2 with hcomma hd3
  injection hd3 with hspace hd4
  obtain ⟨hb, hd5⟩ := pyReprL_framed _ _ _ _ hd4
  injection hd5 with hcomma2 hd6
  injection hd6 with hspace2 hd7
  obtain ⟨hc2, hd8⟩ := pyReprL_framed _ _ _ _ hd7
  injection hd8 with hcomma3 hd9
  injection hd9 with hspace3 hd10
  obtain ⟨hd11, _⟩ := pyReprL_framed _ _ _ _ hd10
  exact ⟨String.ext ha, String.ext hb, String.ext hc2, String.ext hd11⟩

/-- C4: credential descriptors agreeing on (dsn, user, database, schema)
hash to the same pool key; descriptors differing in any of the four
fields feed **different** texts into SHA-256 — so their keys differ
whenever the hash does not collide on those two texts (the
cryptographically negligible caveat of the claim). -/
theorem claim_C4_pool_key_determinism (a b : ExasolCredentials) :
    ((a.dsn = b.dsn ∧ a.user = b.user ∧ a.database = b.database ∧
        a.schema = b.schema) →
      _get_pool_key a = _get_pool_key b) ∧
    (¬(a.dsn = b.dsn ∧ a.user = b.user ∧ a.database = b.database ∧
        a.schema = b.schema) →
      poolKeyInput a ≠ poolKeyInput b ∧
      ((sha256hex (poolKeyInput a) = sha256hex (poolKeyInput b) →
          poolKeyInput a = poolKeyInput b) →
        _get_pool_key a ≠ _get_pool_key b)) := by
  constructor
  · rintro ⟨h1, h2, h3, h4⟩
    unfold _get_pool_key poolKeyInput
    rw [h1, h2, h3, h4]
  · intro hne
    have hinj : poolKeyInput a ≠ poolKeyInput b := by
      intro heq
      unfold poolKeyInput at heq
      obtain ⟨e1, e2, e3, e4⟩ := pyStrTuple4_inj _ _ _ _ _ _ _ _ heq
      exact hne ⟨e1, e2, e3, e4⟩
    exact ⟨hinj, fun hcf hkeys => hinj (hcf hkeys)⟩

/-- Witness for C4: credentials differing only in non-identity fields
share the key; credentials differing in the dsn feed different texts to
the hash. -/
theorem claim_C4_witness :
    _get_pool_key fixCreds = _get_pool_key { fixCreds with retries := 7 } ∧
    poolKeyInput fixCreds ≠ poolKeyInput fixCredsB :=
  ⟨(claim_C4_pool_key_determinism fixCreds { fixCreds with retries := 7 }).1
      ⟨rfl, rfl, rfl, rfl⟩,
   ((claim_C4_pool_key_determinism fixCreds fixCredsB).2 (by decide)).1⟩

end DbtExasol
